import Mathlib

/-!
Verification development for the OpenAVB AAF (AVTP Audio Format) mapping module
(`src/lib/avtp_pipeline/map_aaf_audio/openavb_map_aaf_audio.c`).

The C code is shallowly embedded: byte buffers are modelled as functions
`Nat → Nat` (one `Nat` per byte), pointers into the circular-queue storage
become `Nat` offsets, `memcpy`/`memset` become pointwise function updates,
and 32-bit machine arithmetic is made explicit with `% 2^32` where overflow
can occur.  The structure and field names follow the C source.
-/

set_option maxHeartbeats 1000000

namespace AAF

/-- Models `memcpy(st + pos, src, n)` (or `memset` when `src` is the constant
zero function): bytes `pos .. pos+n-1` of the buffer are replaced by
`src 0 .. src (n-1)`, all other bytes are untouched. -/
def memWrite (st : Nat → Nat) (pos : Nat) (src : Nat → Nat) (n : Nat) : Nat → Nat :=
  fun j => if pos ≤ j ∧ j < pos + n then src (j - pos) else st j

/-- Reads `n` consecutive bytes of a buffer starting at offset `pos`
(a `memcpy` out of the buffer, as a list). -/
def cqReadList (st : Nat → Nat) (pos n : Nat) : List Nat :=
  (List.range n).map fun i => st (pos + i)

/-- The `circular_queue_t` struct of the source.  `queueStorage` is the byte
buffer, `queueHead`/`queueTail` are byte offsets into the storage (the C code
stores pointers `queueStorage + offset`). -/
structure circular_queue_t where
  queueSize : Nat
  queueStorage : Nat → Nat
  queueHead : Nat
  queueTail : Nat

/-- Source function `CircularQueueBytesQueued`: number of bytes between tail
and head, accounting for wrap-around. -/
def CircularQueueBytesQueued (q : circular_queue_t) : Nat :=
  if q.queueHead < q.queueTail then q.queueHead + q.queueSize - q.queueTail
  else q.queueHead - q.queueTail

/-- The byte source used by a push: the supplied buffer, or all zeros for a
NULL pointer (for which the C code performs `memset(…, 0, …)` instead of
`memcpy`). -/
def pushSrc (pData : Option (Nat → Nat)) : Nat → Nat :=
  fun i => match pData with | some f => f i | none => 0

/-- Source function `PushBufferToCircularQueue`.  `pData = none` models a
NULL data pointer.  Phase 1 copies up to the end of the storage, phase 2
wraps to the start. -/
def PushBufferToCircularQueue (q : circular_queue_t) (pData : Option (Nat → Nat))
    (nDataSize : Nat) : circular_queue_t :=
  let bytesToCopyPhase1 := min (q.queueSize - q.queueHead) nDataSize
  let st1 := memWrite q.queueStorage q.queueHead (pushSrc pData) bytesToCopyPhase1
  let h1 := q.queueHead + bytesToCopyPhase1
  if q.queueSize ≤ h1 then
    let bytesToCopyPhase2 := nDataSize - bytesToCopyPhase1
    let st2 := memWrite st1 0 (fun i => pushSrc pData (bytesToCopyPhase1 + i)) bytesToCopyPhase2
    { q with queueStorage := st2, queueHead := bytesToCopyPhase2 }
  else
    { q with queueStorage := st1, queueHead := h1 }

/-- Source function `PullBufferFromCircularQueue`.  The returned list is the
data copied out (`pData` in C); a NULL `pData` in C skips the `memcpy` but
updates the tail identically, so a discarding pull is modelled by ignoring
the returned list. -/
def PullBufferFromCircularQueue (q : circular_queue_t) (nDataSize : Nat) :
    circular_queue_t × List Nat :=
  let bytesToCopyPhase1 := min (q.queueSize - q.queueTail) nDataSize
  let out1 := cqReadList q.queueStorage q.queueTail bytesToCopyPhase1
  let t1 := q.queueTail + bytesToCopyPhase1
  if q.queueSize ≤ t1 then
    let bytesToCopyPhase2 := nDataSize - bytesToCopyPhase1
    let out2 := cqReadList q.queueStorage 0 bytesToCopyPhase2
    ({ q with queueTail := bytesToCopyPhase2 }, out1 ++ out2)
  else
    ({ q with queueTail := t1 }, out1)

/-- Source function `CompareBufferToCircularQueue`, including its phase-2
offset into the caller buffer (`pData + bytesToComparePhase2`).  The queue is
not modified (the C parameter is `const`). -/
def CompareBufferToCircularQueue (q : circular_queue_t) (pData : List Nat)
    (nDataSize : Nat) : Bool :=
  let bytesToComparePhase1 := min (q.queueSize - q.queueTail) nDataSize
  if pData.take bytesToComparePhase1 = cqReadList q.queueStorage q.queueTail bytesToComparePhase1 then
    if bytesToComparePhase1 < nDataSize then
      let bytesToComparePhase2 := nDataSize - bytesToComparePhase1
      decide ((pData.drop bytesToComparePhase2).take bytesToComparePhase2 =
        cqReadList q.queueStorage 0 bytesToComparePhase2)
    else true
  else false

/-- Well-formedness of a circular queue: positive capacity and in-range
head/tail offsets (the C invariant for a successfully allocated queue). -/
def cqWf (q : circular_queue_t) : Prop :=
  0 < q.queueSize ∧ q.queueHead < q.queueSize ∧ q.queueTail < q.queueSize

/-- Abstraction function: the queued bytes, in FIFO order starting at the
tail. -/
def cqContents (q : circular_queue_t) : List Nat :=
  (List.range (CircularQueueBytesQueued q)).map
    fun i => q.queueStorage ((q.queueTail + i) % q.queueSize)

theorem bytesQueued_eq_mod (q : circular_queue_t) (hwf : cqWf q) :
    CircularQueueBytesQueued q = (q.queueHead + q.queueSize - q.queueTail) % q.queueSize := by
  obtain ⟨hC, hh, ht⟩ := hwf
  unfold CircularQueueBytesQueued
  by_cases h : q.queueHead < q.queueTail
  · rw [if_pos h, Nat.mod_eq_of_lt (by omega)]
  · rw [if_neg h]
    have h2 : q.queueHead + q.queueSize - q.queueTail = (q.queueHead - q.queueTail) + q.queueSize := by
      omega
    rw [h2, Nat.add_mod_right, Nat.mod_eq_of_lt (by omega)]

theorem bytesQueued_lt (q : circular_queue_t) (hwf : cqWf q) :
    CircularQueueBytesQueued q < q.queueSize := by
  rw [bytesQueued_eq_mod q hwf]
  exact Nat.mod_lt _ hwf.1

theorem cqContents_length (q : circular_queue_t) :
    (cqContents q).length = CircularQueueBytesQueued q := by
  simp [cqContents]

theorem push_queueSize (q : circular_queue_t) (d : Option (Nat → Nat)) (n : Nat) :
    (PushBufferToCircularQueue q d n).queueSize = q.queueSize := by
  unfold PushBufferToCircularQueue
  dsimp only
  split <;> rfl

theorem push_queueTail (q : circular_queue_t) (d : Option (Nat → Nat)) (n : Nat) :
    (PushBufferToCircularQueue q d n).queueTail = q.queueTail := by
  unfold PushBufferToCircularQueue
  dsimp only
  split <;> rfl

theorem push_queueHead (q : circular_queue_t) (d : Option (Nat → Nat)) (n : Nat)
    (hwf : cqWf q) (hn : n ≤ q.queueSize) :
    (PushBufferToCircularQueue q d n).queueHead = (q.queueHead + n) % q.queueSize := by
  obtain ⟨hC, hh, ht⟩ := hwf
  unfold PushBufferToCircularQueue
  dsimp only
  split
  case isTrue hcase =>
    have hp1 : min (q.queueSize - q.queueHead) n = q.queueSize - q.queueHead := by omega
    have hge : q.queueSize ≤ q.queueHead + n := by omega
    have hlt : q.queueHead + n - q.queueSize < q.queueSize := by omega
    rw [Nat.mod_eq_sub_mod hge, Nat.mod_eq_of_lt hlt]
    simp only [hp1]
    omega
  case isFalse hcase =>
    have hp1 : min (q.queueSize - q.queueHead) n = n := by omega
    have hlt : q.queueHead + n < q.queueSize := by omega
    rw [Nat.mod_eq_of_lt hlt]
    simp only [hp1]

theorem push_wf (q : circular_queue_t) (d : Option (Nat → Nat)) (n : Nat)
    (hwf : cqWf q) (hn : n ≤ q.queueSize) :
    cqWf (PushBufferToCircularQueue q d n) := by
  refine ⟨?_, ?_, ?_⟩
  · rw [push_queueSize]; exact hwf.1
  · rw [push_queueSize, push_queueHead q d n hwf hn]
    exact Nat.mod_lt _ hwf.1
  · rw [push_queueSize, push_queueTail]; exact hwf.2.2

theorem push_storage_hit (q : circular_queue_t) (d : Option (Nat → Nat)) (n : Nat)
    (hwf : cqWf q) (hn : n ≤ q.queueSize) :
    ∀ i < n, (PushBufferToCircularQueue q d n).queueStorage ((q.queueHead + i) % q.queueSize)
      = pushSrc d i := by
  obtain ⟨hC, hh, ht⟩ := hwf
  intro i hi
  unfold PushBufferToCircularQueue
  dsimp only
  split
  case isTrue hcase =>
    have hp1 : min (q.queueSize - q.queueHead) n = q.queueSize - q.queueHead := by omega
    simp only [memWrite, hp1]
    by_cases hilt : i < q.queueSize - q.queueHead
    · have hpos : (q.queueHead + i) % q.queueSize = q.queueHead + i :=
        Nat.mod_eq_of_lt (by omega)
      rw [hpos]
      rw [if_neg (by omega), if_pos (by omega)]
      congr 1
      omega
    · have hpos : (q.queueHead + i) % q.queueSize = i - (q.queueSize - q.queueHead) := by
        rw [Nat.mod_eq_sub_mod (by omega), Nat.mod_eq_of_lt (by omega)]
        omega
      rw [hpos]
      rw [if_pos (by omega)]
      show pushSrc d _ = pushSrc d i
      congr 1
      omega
  case isFalse hcase =>
    have hp1 : min (q.queueSize - q.queueHead) n = n := by omega
    simp only [memWrite, hp1]
    have hpos : (q.queueHead + i) % q.queueSize = q.queueHead + i :=
      Nat.mod_eq_of_lt (by omega)
    rw [hpos, if_pos (by omega)]
    congr 1
    omega

theorem push_storage_miss (q : circular_queue_t) (d : Option (Nat → Nat)) (n : Nat)
    (hwf : cqWf q) (hn : n ≤ q.queueSize) :
    ∀ j, (∀ i < n, (q.queueHead + i) % q.queueSize ≠ j) →
      (PushBufferToCircularQueue q d n).queueStorage j = q.queueStorage j := by
  obtain ⟨hC, hh, ht⟩ := hwf
  intro j hj
  unfold PushBufferToCircularQueue
  dsimp only
  split
  case isTrue hcase =>
    have hp1 : min (q.queueSize - q.queueHead) n = q.queueSize - q.queueHead := by omega
    simp only [memWrite, hp1]
    have hnot2 : ¬ (0 ≤ j ∧ j < 0 + (n - (q.queueSize - q.queueHead))) := by
      rintro ⟨-, hjlt⟩
      refine hj ((q.queueSize - q.queueHead) + j) (by omega) ?_
      have : q.queueHead + ((q.queueSize - q.queueHead) + j) = q.queueSize + j := by omega
      rw [this, Nat.add_mod_left, Nat.mod_eq_of_lt (by omega)]
    have hnot1 : ¬ (q.queueHead ≤ j ∧ j < q.queueHead + (q.queueSize - q.queueHead)) := by
      rintro ⟨hle, hlt⟩
      refine hj (j - q.queueHead) (by omega) ?_
      have : q.queueHead + (j - q.queueHead) = j := by omega
      rw [this, Nat.mod_eq_of_lt (by omega)]
    rw [if_neg hnot2, if_neg hnot1]
  case isFalse hcase =>
    have hp1 : min (q.queueSize - q.queueHead) n = n := by omega
    simp only [memWrite, hp1]
    have hnot1 : ¬ (q.queueHead ≤ j ∧ j < q.queueHead + n) := by
      rintro ⟨hle, hlt⟩
      refine hj (j - q.queueHead) (by omega) ?_
      have : q.queueHead + (j - q.queueHead) = j := by omega
      rw [this, Nat.mod_eq_of_lt (by omega)]
    rw [if_neg hnot1]

theorem modEq_head_tail (q : circular_queue_t) (hwf : cqWf q) :
    (q.queueTail + CircularQueueBytesQueued q) % q.queueSize = q.queueHead := by
  obtain ⟨hC, hh, ht⟩ := hwf
  unfold CircularQueueBytesQueued
  by_cases h : q.queueHead < q.queueTail
  · rw [if_pos h]
    have h2 : q.queueTail + (q.queueHead + q.queueSize - q.queueTail)
        = q.queueHead + q.queueSize := by omega
    rw [h2, Nat.add_mod_right, Nat.mod_eq_of_lt hh]
  · rw [if_neg h]
    have h2 : q.queueTail + (q.queueHead - q.queueTail) = q.queueHead := by omega
    rw [h2, Nat.mod_eq_of_lt hh]

theorem push_bytesQueued (q : circular_queue_t) (d : Option (Nat → Nat)) (n : Nat)
    (hwf : cqWf q) (hroom : CircularQueueBytesQueued q + n < q.queueSize) :
    CircularQueueBytesQueued (PushBufferToCircularQueue q d n)
      = CircularQueueBytesQueued q + n := by
  have hn : n ≤ q.queueSize := by omega
  have hwf2 := push_wf q d n hwf hn
  rw [bytesQueued_eq_mod _ hwf2, push_queueSize, push_queueTail,
    push_queueHead q d n hwf hn]
  obtain ⟨hC, hh, ht⟩ := hwf
  -- (q.queueHead + n) % C + C - t  ≡  q.queueHead + n + C - t  [MOD C]
  have key : ∀ x : Nat, q.queueTail ≤ q.queueSize →
      (x % q.queueSize + q.queueSize - q.queueTail) % q.queueSize
        = (x + q.queueSize - q.queueTail) % q.queueSize := by
    intro x hts
    have hx : x = q.queueSize * (x / q.queueSize) + x % q.queueSize :=
      (Nat.div_add_mod x q.queueSize).symm
    conv_rhs => rw [hx]
    have h2 : q.queueSize * (x / q.queueSize) + x % q.queueSize + q.queueSize - q.queueTail
        = q.queueSize * (x / q.queueSize) + (x % q.queueSize + q.queueSize - q.queueTail) := by
      omega
    rw [h2, Nat.mul_add_mod]
  rw [key _ (by omega)]
  have h3 : q.queueHead + n + q.queueSize - q.queueTail
      = (q.queueHead + q.queueSize - q.queueTail) + n := by omega
  rw [h3, Nat.add_mod, ← bytesQueued_eq_mod q ⟨hC, hh, ht⟩,
    Nat.mod_eq_of_lt (show n < q.queueSize by omega),
    Nat.mod_eq_of_lt (by omega)]

theorem push_cqContents (q : circular_queue_t) (d : Option (Nat → Nat)) (n : Nat)
    (hwf : cqWf q) (hroom : CircularQueueBytesQueued q + n < q.queueSize) :
    cqContents (PushBufferToCircularQueue q d n)
      = cqContents q ++ (List.range n).map (pushSrc d) := by
  have hn : n ≤ q.queueSize := by omega
  have hC := hwf.1
  have hB := bytesQueued_lt q hwf
  have hht := modEq_head_tail q hwf
  apply List.ext_getElem
  · simp only [cqContents_length, push_bytesQueued q d n hwf hroom, List.length_append,
      List.length_map, List.length_range]
  · intro i h1 h2
    simp only [cqContents_length, push_bytesQueued q d n hwf hroom] at h1
    simp only [cqContents, List.getElem_map, List.getElem_range, push_queueSize,
      push_queueTail]
    by_cases hiB : i < CircularQueueBytesQueued q
    · rw [List.getElem_append_left (by simpa [cqContents_length] using hiB)]
      simp only [cqContents, List.getElem_map, List.getElem_range]
      apply push_storage_miss q d n hwf hn
      intro i2 hi2 heq
      have e1 : (q.queueHead + i2) % q.queueSize
          = (q.queueTail + (CircularQueueBytesQueued q + i2)) % q.queueSize := by
        rw [← hht, Nat.mod_add_mod]
        congr 1
        omega
      rw [e1] at heq
      have h5 : (CircularQueueBytesQueued q + i2) % q.queueSize = i % q.queueSize :=
        Nat.ModEq.add_left_cancel' q.queueTail heq
      rw [Nat.mod_eq_of_lt (by omega), Nat.mod_eq_of_lt (by omega)] at h5
      omega
    · rw [List.getElem_append_right (by simpa [cqContents_length] using hiB)]
      simp only [cqContents, List.length_map, List.length_range, List.getElem_map,
        List.getElem_range]
      have e1 : (q.queueTail + i) % q.queueSize
          = (q.queueHead + (i - CircularQueueBytesQueued q)) % q.queueSize := by
        rw [← hht, Nat.mod_add_mod]
        congr 1
        omega
      rw [e1]
      exact push_storage_hit q d n hwf hn (i - CircularQueueBytesQueued q) (by omega)

theorem pull_queueSize (q : circular_queue_t) (n : Nat) :
    (PullBufferFromCircularQueue q n).1.queueSize = q.queueSize := by
  unfold PullBufferFromCircularQueue
  dsimp only
  split <;> rfl

theorem pull_queueHead (q : circular_queue_t) (n : Nat) :
    (PullBufferFromCircularQueue q n).1.queueHead = q.queueHead := by
  unfold PullBufferFromCircularQueue
  dsimp only
  split <;> rfl

theorem pull_queueStorage (q : circular_queue_t) (n : Nat) :
    (PullBufferFromCircularQueue q n).1.queueStorage = q.queueStorage := by
  unfold PullBufferFromCircularQueue
  dsimp only
  split <;> rfl

theorem pull_queueTail (q : circular_queue_t) (n : Nat)
    (hwf : cqWf q) (hn : n ≤ q.queueSize) :
    (PullBufferFromCircularQueue q n).1.queueTail = (q.queueTail + n) % q.queueSize := by
  obtain ⟨hC, hh, ht⟩ := hwf
  unfold PullBufferFromCircularQueue
  dsimp only
  split
  case isTrue hcase =>
    have hp1 : min (q.queueSize - q.queueTail) n = q.queueSize - q.queueTail := by omega
    have hge : q.queueSize ≤ q.queueTail + n := by omega
    have hlt : q.queueTail + n - q.queueSize < q.queueSize := by omega
    rw [Nat.mod_eq_sub_mod hge, Nat.mod_eq_of_lt hlt]
    simp only [hp1]
    omega
  case isFalse hcase =>
    have hp1 : min (q.queueSize - q.queueTail) n = n := by omega
    have hlt : q.queueTail + n < q.queueSize := by omega
    rw [Nat.mod_eq_of_lt hlt]
    simp only [hp1]

theorem pull_wf (q : circular_queue_t) (n : Nat) (hwf : cqWf q) (hn : n ≤ q.queueSize) :
    cqWf (PullBufferFromCircularQueue q n).1 := by
  refine ⟨?_, ?_, ?_⟩
  · rw [pull_queueSize]; exact hwf.1
  · rw [pull_queueSize, pull_queueHead]; exact hwf.2.1
  · rw [pull_queueSize, pull_queueTail q n hwf hn]
    exact Nat.mod_lt _ hwf.1

theorem pull_out (q : circular_queue_t) (n : Nat) (hwf : cqWf q) (hn : n ≤ q.queueSize) :
    (PullBufferFromCircularQueue q n).2
      = (List.range n).map (fun i => q.queueStorage ((q.queueTail + i) % q.queueSize)) := by
  obtain ⟨hC, hh, ht⟩ := hwf
  unfold PullBufferFromCircularQueue
  dsimp only
  split
  case isTrue hcase =>
    have hp1 : min (q.queueSize - q.queueTail) n = q.queueSize - q.queueTail := by omega
    simp only [hp1, cqReadList]
    have hsplit : n = (q.queueSize - q.queueTail) + (n - (q.queueSize - q.queueTail)) := by
      omega
    conv_rhs => rw [hsplit, List.range_add, List.map_append, List.map_map]
    congr 1
    · apply List.map_congr_left
      intro a ha
      rw [List.mem_range] at ha
      rw [Nat.mod_eq_of_lt (by omega)]
    · apply List.map_congr_left
      intro a ha
      rw [List.mem_range] at ha
      simp only [Function.comp]
      have h2 : q.queueTail + (q.queueSize - q.queueTail + a) = q.queueSize + a := by omega
      rw [h2, Nat.add_mod_left, Nat.mod_eq_of_lt (by omega), Nat.zero_add]
  case isFalse hcase =>
    have hp1 : min (q.queueSize - q.queueTail) n = n := by omega
    simp only [hp1, cqReadList]
    apply List.map_congr_left
    intro a ha
    rw [List.mem_range] at ha
    rw [Nat.mod_eq_of_lt (by omega)]

theorem pull_bytesQueued (q : circular_queue_t) (n : Nat) (hwf : cqWf q)
    (hn : n ≤ CircularQueueBytesQueued q) :
    CircularQueueBytesQueued (PullBufferFromCircularQueue q n).1
      = CircularQueueBytesQueued q - n := by
  have hB := bytesQueued_lt q hwf
  have hnC : n ≤ q.queueSize := by omega
  have hwf2 := pull_wf q n hwf hnC
  have hht := modEq_head_tail q hwf
  -- new tail and new count
  have ht2 := pull_queueTail q n hwf hnC
  have hht2 := modEq_head_tail _ hwf2
  rw [pull_queueSize, pull_queueHead, ht2] at hht2
  -- hht2 : ((t + n) % C + B2) % C = h ; hht : (t + B) % C = h
  set B2 := CircularQueueBytesQueued (PullBufferFromCircularQueue q n).1 with hB2def
  have hB2lt : B2 < q.queueSize := by
    have := bytesQueued_lt _ hwf2
    rwa [pull_queueSize] at this
  have e1 : (q.queueTail + (n + B2)) % q.queueSize = q.queueHead := by
    have h3 : q.queueTail + (n + B2) = (q.queueTail + n) + B2 := by omega
    rw [h3, ← Nat.mod_add_mod, hht2]
  rw [← hht] at e1
  have e2 : (n + B2) % q.queueSize = CircularQueueBytesQueued q % q.queueSize :=
    Nat.ModEq.add_left_cancel' q.queueTail e1
  rw [Nat.mod_eq_of_lt hB] at e2
  by_cases hsmall : n + B2 < q.queueSize
  · rw [Nat.mod_eq_of_lt hsmall] at e2
    omega
  · rw [Nat.mod_eq_sub_mod (by omega), Nat.mod_eq_of_lt (by omega)] at e2
    omega

theorem pull_take_drop (q : circular_queue_t) (n : Nat) (hwf : cqWf q)
    (hn : n ≤ CircularQueueBytesQueued q) :
    (PullBufferFromCircularQueue q n).2 = (cqContents q).take n ∧
    cqContents (PullBufferFromCircularQueue q n).1 = (cqContents q).drop n := by
  have hB := bytesQueued_lt q hwf
  have hnC : n ≤ q.queueSize := by omega
  constructor
  · rw [pull_out q n hwf hnC]
    unfold cqContents
    rw [← List.map_take, List.take_range]
    have hmin : n ⊓ CircularQueueBytesQueued q = n := by omega
    rw [hmin]
  · apply List.ext_getElem
    · simp only [cqContents_length, pull_bytesQueued q n hwf hn, List.length_drop]
    · intro i h1 h2
      simp only [cqContents_length, pull_bytesQueued q n hwf hn] at h1
      simp only [cqContents, List.getElem_map, List.getElem_range, pull_queueSize,
        pull_queueStorage, List.getElem_drop]
      rw [pull_queueTail q n hwf hnC]
      congr 1
      rw [Nat.mod_add_mod]
      congr 1
      omega

/-! ## Talker temporal-redundancy stage (`openavbMapAVTPAudioTxCB`, gen-init prefill)

With temporal redundancy enabled, `openavbMapAVTPAudioTxCB` writes the live
payload to the second (redundant) payload slot, pushes it to the redundancy
queue padded to `temporalRedundantQueueFrameSize`, then pulls one aged frame
into the first (primary) payload slot and discards its padding.
`openavbMapAVTPAudioGenInitCB` allocates the queue with capacity
`frameSize * (offsetPackets + 2)` and pre-fills it with
`frameSize * offsetPackets` zero bytes. -/

/-- One invocation of the redundancy stage of `openavbMapAVTPAudioTxCB`
(source lines 720–737): push the live payload (`bytesNeeded` bytes), pad to
the queue frame size, pull the aged primary payload, skip its padding.
Returns the updated queue and the bytes placed in the primary payload slot. -/
def txRedundancyStep (frameSize bytesNeeded : Nat) (q : circular_queue_t)
    (live : List Nat) : circular_queue_t × List Nat :=
  let q1 := PushBufferToCircularQueue q (some fun i => live.getD i 0) bytesNeeded
  let q2 := if bytesNeeded < frameSize then
      PushBufferToCircularQueue q1 none (frameSize - bytesNeeded) else q1
  let pr := PullBufferFromCircularQueue q2 bytesNeeded
  let q4 := if bytesNeeded < frameSize then
      (PullBufferFromCircularQueue pr.1 (frameSize - bytesNeeded)).1 else pr.1
  (q4, pr.2)

/-- The redundancy queue as created and pre-filled by
`openavbMapAVTPAudioGenInitCB` (source lines 519–532). -/
def txRedundancyInit (frameSize offsetPackets : Nat) : circular_queue_t :=
  PushBufferToCircularQueue
    ⟨frameSize * (offsetPackets + 2), fun _ => 0, 0, 0⟩ none (frameSize * offsetPackets)

/-- Iterated talker intervals: feed the list of live payloads through the
redundancy stage, collecting the primary payload of each produced packet. -/
def txRedundancyRun (frameSize bytesNeeded : Nat) (q : circular_queue_t) :
    List (List Nat) → circular_queue_t × List (List Nat)
  | [] => (q, [])
  | live :: rest =>
    let st := txRedundancyStep frameSize bytesNeeded q live
    let r := txRedundancyRun frameSize bytesNeeded st.1 rest
    (r.1, st.2 :: r.2)

/-- Abstraction invariant for the redundancy queue: its contents are the
concatenation of `pending` delayed frames, each of `frameSize` bytes. -/
def txRedundancyInv (frameSize offsetPackets : Nat) (q : circular_queue_t)
    (pending : List (List Nat)) : Prop :=
  cqWf q ∧ q.queueSize = frameSize * (offsetPackets + 2) ∧
  pending.length = offsetPackets ∧ (∀ f ∈ pending, f.length = frameSize) ∧
  cqContents q = pending.flatten

theorem flatten_length_of_uniform (L : List (List Nat)) (F : Nat)
    (h : ∀ f ∈ L, f.length = F) : L.flatten.length = L.length * F := by
  induction L with
  | nil => simp
  | cons a L ih =>
    simp only [List.flatten_cons, List.length_append, List.length_cons,
      h a (by simp), ih (fun f hf => h f (by simp [hf]))]
    ring

theorem range_map_getD (l : List Nat) (n : Nat) (h : l.length = n) :
    (List.range n).map (fun i => l.getD i 0) = l := by
  apply List.ext_getElem
  · simp [h]
  · intro i h1 h2
    simp only [List.getElem_map, List.getElem_range]
    exact List.getD_eq_getElem l 0 (by omega)

theorem range_map_zero (n : Nat) :
    (List.range n).map (fun _ : Nat => (0 : Nat)) = List.replicate n 0 := by
  apply List.ext_getElem
  · simp
  · intro i h1 h2
    simp [List.getElem_replicate]

theorem replicate_flatten (P F : Nat) :
    (List.replicate P (List.replicate F (0 : Nat))).flatten = List.replicate (P * F) 0 := by
  induction P with
  | zero => simp
  | succ P ih =>
    rw [List.replicate_succ, List.flatten_cons, ih, ← List.replicate_add]
    congr 1
    ring

theorem txRedundancyStep_spec (F n P : Nat) (q : circular_queue_t)
    (pending : List (List Nat)) (live : List Nat)
    (hinv : txRedundancyInv F P q pending) (hlive : live.length = n)
    (hn : n ≤ F) (hF : 0 < F) :
    txRedundancyInv F P (txRedundancyStep F n q live).1
        ((pending ++ [live ++ List.replicate (F - n) 0]).tail) ∧
      (txRedundancyStep F n q live).2
        = ((pending ++ [live ++ List.replicate (F - n) 0]).headD []).take n := by
  obtain ⟨hwf, hsize, hplen, hpuni, hcont⟩ := hinv
  set liveF := live ++ List.replicate (F - n) 0 with hliveF
  have hliveFlen : liveF.length = F := by
    rw [hliveF, List.length_append, List.length_replicate, hlive]; omega
  have hCsize : q.queueSize = P * F + 2 * F := by rw [hsize]; ring
  have hB : CircularQueueBytesQueued q = P * F := by
    rw [← cqContents_length, hcont, flatten_length_of_uniform pending F hpuni, hplen]
  -- push the live payload
  have hroom1 : CircularQueueBytesQueued q + n < q.queueSize := by
    rw [hB, hCsize]; omega
  set q1 := PushBufferToCircularQueue q (some fun i => live.getD i 0) n with hq1def
  have hq1wf : cqWf q1 := push_wf q _ n hwf (by omega)
  have hq1size : q1.queueSize = q.queueSize := push_queueSize q _ n
  have hq1B : CircularQueueBytesQueued q1 = CircularQueueBytesQueued q + n :=
    push_bytesQueued q _ n hwf hroom1
  have hq1cont : cqContents q1 = pending.flatten ++ live := by
    rw [hq1def, push_cqContents q _ n hwf hroom1, hcont]
    congr 1
    exact range_map_getD live n hlive
  -- pad to the frame size (a no-op when n = F)
  set q2 := (if n < F then PushBufferToCircularQueue q1 none (F - n) else q1) with hq2def
  have hq2props : cqWf q2 ∧ q2.queueSize = q.queueSize ∧
      cqContents q2 = pending.flatten ++ liveF := by
    by_cases hnF : n < F
    · rw [hq2def, if_pos hnF]
      have hroom2 : CircularQueueBytesQueued q1 + (F - n) < q1.queueSize := by
        rw [hq1B, hB, hq1size, hCsize]; omega
      refine ⟨push_wf q1 none (F - n) hq1wf (by omega), ?_, ?_⟩
      · rw [push_queueSize, hq1size]
      · rw [push_cqContents q1 none (F - n) hq1wf hroom2, hq1cont, hliveF,
          List.append_assoc]
        congr 2
        exact range_map_zero (F - n)
    · rw [hq2def, if_neg hnF]
      have hnFeq : n = F := by omega
      refine ⟨hq1wf, hq1size, ?_⟩
      rw [hq1cont, hliveF, hnFeq]
      simp
  obtain ⟨hq2wf, hq2size, hq2cont⟩ := hq2props
  have hq2B : CircularQueueBytesQueued q2 = P * F + F := by
    rw [← cqContents_length, hq2cont, List.length_append, hliveFlen,
      flatten_length_of_uniform pending F hpuni, hplen]
  -- pull the aged primary payload
  have hnle : n ≤ CircularQueueBytesQueued q2 := by omega
  obtain ⟨hpullout, hpullcont⟩ := pull_take_drop q2 n hq2wf hnle
  set q3 := (PullBufferFromCircularQueue q2 n).1 with hq3def
  have hq3wf : cqWf q3 := pull_wf q2 n hq2wf (by rw [hq2size, hCsize]; omega)
  have hq3B : CircularQueueBytesQueued q3 = P * F + F - n :=
    (pull_bytesQueued q2 n hq2wf hnle).trans (by omega)
  -- skip the padding (a no-op when n = F)
  set q4 := (if n < F then (PullBufferFromCircularQueue q3 (F - n)).1 else q3) with hq4def
  have hq4props : cqWf q4 ∧ q4.queueSize = q.queueSize ∧
      cqContents q4 = (pending.flatten ++ liveF).drop F := by
    by_cases hnF : n < F
    · rw [hq4def, if_pos hnF]
      have hle4 : F - n ≤ CircularQueueBytesQueued q3 := by rw [hq3B]; omega
      obtain ⟨-, hcont4⟩ := pull_take_drop q3 (F - n) hq3wf hle4
      refine ⟨pull_wf q3 (F - n) hq3wf ?_, ?_, ?_⟩
      · rw [hq3def, pull_queueSize, hq2size, hCsize]; omega
      · rw [pull_queueSize, hq3def, pull_queueSize, hq2size]
      · rw [hcont4, hpullcont, hq2cont, List.drop_drop]
        congr 1
        omega
    · rw [hq4def, if_neg hnF]
      have hnFeq : n = F := by omega
      refine ⟨hq3wf, by rw [hq3def, pull_queueSize, hq2size], ?_⟩
      rw [hpullcont, hq2cont, hnFeq]
  obtain ⟨hq4wf, hq4size, hq4cont⟩ := hq4props
  have hstep1 : (txRedundancyStep F n q live).1 = q4 := by
    simp only [txRedundancyStep]
  have hstep2 : (txRedundancyStep F n q live).2 = (PullBufferFromCircularQueue q2 n).2 := by
    simp only [txRedundancyStep]
  constructor
  · refine ⟨?_, ?_, ?_, ?_, ?_⟩
    · rw [hstep1]; exact hq4wf
    · rw [hstep1, hq4size, hsize]
    · cases pending with
      | nil =>
        simp only [List.length_nil] at hplen
        simp [← hplen]
      | cons p ps =>
        simp only [List.cons_append, List.tail_cons, List.length_append,
          List.length_cons, List.length_nil] at *
        omega
    · intro f hf
      cases pending with
      | nil =>
        simp only [List.nil_append, List.tail_cons, List.not_mem_nil] at hf
      | cons p ps =>
        simp only [List.cons_append, List.tail_cons, List.mem_append,
          List.mem_singleton] at hf
        rcases hf with hf | hf
        · exact hpuni f (by simp [hf])
        · rw [hf]; exact hliveFlen
    · rw [hstep1, hq4cont]
      cases pending with
      | nil =>
        simp only [List.flatten_nil, List.nil_append, List.tail_cons,
          List.flatten_nil]
        exact List.drop_eq_nil_of_le (by rw [hliveFlen])
      | cons p ps =>
        simp only [List.flatten_cons, List.cons_append, List.tail_cons]
        rw [List.append_assoc, ← hpuni p (by simp), List.drop_left]
        simp [List.flatten_append]
  · rw [hstep2, hpullout, hq2cont]
    cases pending with
    | nil => simp
    | cons p ps =>
      simp only [List.flatten_cons, List.cons_append, List.headD_cons]
      rw [List.append_assoc,
        List.take_append_of_le_length (by rw [hpuni p (by simp)]; omega)]

theorem txRedundancyRun_spec (F n P : Nat) (payloads : List (List Nat))
    (q : circular_queue_t) (pending : List (List Nat))
    (hinv : txRedundancyInv F P q pending) (hn : n ≤ F) (hF : 0 < F)
    (hall : ∀ p ∈ payloads, p.length = n) :
    (txRedundancyRun F n q payloads).2
      = (List.range payloads.length).map
          (fun k => ((pending ++ payloads.map
              (fun p => p ++ List.replicate (F - n) 0)).getD k []).take n) := by
  induction payloads generalizing q pending with
  | nil => simp [txRedundancyRun]
  | cons live rest ih =>
    obtain ⟨hinv2, hout⟩ := txRedundancyStep_spec F n P q pending live hinv
      (hall live (by simp)) hn hF
    simp only [txRedundancyRun]
    rw [ih (txRedundancyStep F n q live).1 _ hinv2
      (fun p hp => hall p (List.mem_cons_of_mem _ hp))]
    rw [List.length_cons, List.range_succ_eq_map, List.map_cons, List.map_map]
    congr 1
    · rw [hout]
      cases pending <;> simp
    · apply List.map_congr_left
      intro k hk
      simp only [Function.comp]
      cases pending with
      | nil => simp
      | cons a A2 => simp [List.append_assoc]

theorem txRedundancyInit_inv (F P : Nat) (hF : 0 < F) :
    txRedundancyInv F P (txRedundancyInit F P)
      (List.replicate P (List.replicate F 0)) := by
  have hCpos : 0 < F * (P + 2) := Nat.mul_pos hF (by omega)
  have hwf0 : cqWf ⟨F * (P + 2), fun _ => 0, 0, 0⟩ := ⟨hCpos, hCpos, hCpos⟩
  have hB0 : CircularQueueBytesQueued ⟨F * (P + 2), fun _ => 0, 0, 0⟩ = 0 := by
    simp [CircularQueueBytesQueued]
  have hroom : CircularQueueBytesQueued ⟨F * (P + 2), fun _ => 0, 0, 0⟩ + F * P
      < (⟨F * (P + 2), fun _ => 0, 0, 0⟩ : circular_queue_t).queueSize := by
    rw [hB0]
    show 0 + F * P < F * (P + 2)
    have : F * (P + 2) = F * P + 2 * F := by ring
    omega
  refine ⟨?_, ?_, ?_, ?_, ?_⟩
  · exact push_wf _ none (F * P) hwf0 (by
      show F * P ≤ F * (P + 2)
      have : F * (P + 2) = F * P + 2 * F := by ring
      omega)
  · rw [txRedundancyInit, push_queueSize]
  · simp
  · intro f hf
    rw [List.eq_of_mem_replicate hf, List.length_replicate]
  · rw [txRedundancyInit, push_cqContents _ none (F * P) hwf0 hroom]
    have hc0 : cqContents ⟨F * (P + 2), fun _ => 0, 0, 0⟩ = [] := by
      simp [cqContents, hB0]
    rw [hc0, List.nil_append]
    rw [show List.map (pushSrc none) (List.range (F * P))
        = List.map (fun _ : Nat => (0 : Nat)) (List.range (F * P)) from rfl]
    rw [range_map_zero, replicate_flatten]
    congr 1
    ring

/-- C1: with temporal redundancy enabled on the talker, the primary (first)
payload slot of the packet produced at interval `k + redundancyOffsetPackets`
is byte-for-byte the redundant (second) payload slot — i.e. the live
payload — of the packet produced at interval `k`, and for the first
`redundancyOffsetPackets` packets the primary slot is all zero bytes, from
the gen-init pre-fill of the redundancy queue.  Here `F` is
`temporalRedundantQueueFrameSize`, `n` is `bytesNeeded` (the live payload
size, at most the frame size), `P` is `temporalRedundantOffsetPackets`, and
`payloads` are the live payloads of the successive tx callback invocations
(intervals numbered from 0). -/
theorem C1_tx_redundancy_delay (F n P : Nat) (payloads : List (List Nat))
    (hF : 0 < F) (hn : n ≤ F) (hall : ∀ p ∈ payloads, p.length = n) :
    (∀ k, k < P → k < payloads.length →
      ((txRedundancyRun F n (txRedundancyInit F P) payloads).2).getD k []
        = List.replicate n 0) ∧
    (∀ k, k + P < payloads.length →
      ((txRedundancyRun F n (txRedundancyInit F P) payloads).2).getD (k + P) []
        = payloads.getD k []) := by
  have hrun := txRedundancyRun_spec F n P payloads _ _
    (txRedundancyInit_inv F P hF) hn hF hall
  rw [hrun]
  constructor
  · intro k hkP hklen
    rw [List.getD_eq_getElem _ _ (by simpa using hklen)]
    simp only [List.getElem_map, List.getElem_range]
    rw [List.getD_append _ _ _ k (by simpa using hkP)]
    rw [List.getD_eq_getElem _ _ (by simpa using hkP), List.getElem_replicate]
    rw [List.take_replicate]
    congr 1
    omega
  · intro k hk
    rw [List.getD_eq_getElem _ _ (by simpa using hk)]
    simp only [List.getElem_map, List.getElem_range]
    rw [List.getD_append_right _ _ _ _ (by simp)]
    rw [show k + P - (List.replicate P (List.replicate F (0 : Nat))).length = k by simp]
    rw [List.getD_eq_getElem _ _ (by simpa using (by omega : k < payloads.length)),
      List.getElem_map]
    have hk2 : k < payloads.length := by omega
    have hlen : payloads[k].length = n := hall _ (List.getElem_mem hk2)
    rw [List.take_append_of_le_length (by rw [hlen]), ← hlen, List.take_length]
    rw [List.getD_eq_getElem _ _ (by omega)]

/-- Witness for `C1_tx_redundancy_delay`: frame size 2, payload size 2, a
1-packet redundancy offset, and two concrete payloads; the first primary
slot is zeros and the second primary slot is the first live payload. -/
theorem C1_tx_redundancy_delay_witness :
    (0 : Nat) < 2 ∧ (2 : Nat) ≤ 2 ∧
    ((txRedundancyRun 2 2 (txRedundancyInit 2 1) [[5, 6], [7, 8]]).2).getD 0 []
        = List.replicate 2 0 ∧
    ((txRedundancyRun 2 2 (txRedundancyInit 2 1) [[5, 6], [7, 8]]).2).getD (0 + 1) []
        = [5, 6] := by
  refine ⟨by decide, by decide, ?_, ?_⟩
  · exact (C1_tx_redundancy_delay 2 2 1 [[5, 6], [7, 8]] (by decide) (by decide)
      (by decide)).1 0 (by decide) (by decide)
  · exact (C1_tx_redundancy_delay 2 2 1 [[5, 6], [7, 8]] (by decide) (by decide)
      (by decide)).2 0 (by decide)

/-! ## Bit-0 helpers for the tv/tu flag updates -/

theorem and_FE_bit0 (x : Nat) : (x &&& 0xFE) &&& 1 = 0 := by
  rw [Nat.and_assoc]
  norm_num

theorem or_one_bit0 (x : Nat) : (x ||| 1) &&& 1 = 1 := by
  rw [Nat.and_one_is_mod]
  have h0 : (x ||| 1).testBit 0 = true := by simp [Nat.testBit_lor]
  rw [Nat.testBit_zero] at h0
  simp only [decide_eq_true_eq] at h0
  exact h0

/-! ## C6: `CompareBufferToCircularQueue` phase-2 offset defect

`CompareBufferToCircularQueue` is documented ("Return TRUE if the buffer
matches the next data in the queue, FALSE otherwise") but its wrap-around
phase compares `pData + bytesToComparePhase2` instead of
`pData + bytesToComparePhase1` against the start of the storage. -/

/-- A queue of capacity 5 holding the four bytes `1, 2, 3, 7` starting at
tail offset 2 (so three bytes are at offsets 2..4 and the fourth wraps to
offset 0): `queueStorage = [7, 99, 1, 2, 3]`, `queueHead = 1`,
`queueTail = 2`. -/
def c6FailQueue : circular_queue_t :=
  ⟨5, fun j => [7, 99, 1, 2, 3].getD j 0, 1, 2⟩

/-- C6: refuted by the code.  At `c6FailQueue` the four bytes starting at the
tail are exactly `[1, 2, 3, 7]` (as the pull operation itself shows), yet the
compare operation returns `false`: its wrap-around phase compares the wrong
slice of the caller buffer (`pData + bytesToComparePhase2` instead of
`pData + bytesToComparePhase1`). -/
theorem C6_compare_wraparound_bug :
    CircularQueueBytesQueued c6FailQueue = 4 ∧
    (PullBufferFromCircularQueue c6FailQueue 4).2 = [1, 2, 3, 7] ∧
    CompareBufferToCircularQueue c6FailQueue [1, 2, 3, 7] 4 = false := by
  refine ⟨by decide, by decide, by decide⟩

/-! ## C8: frames-per-packet calculation (`x_calculateSizes`) -/

/-- The `framesPerPacket` computation of `x_calculateSizes` (lines 322–328):
integer division of the audio rate by the tx interval, incremented by one —
with a warning logged — when the division is not exact.  Returns the frame
count and whether the warning was logged. -/
def x_calculateFramesPerPacket (audioRate txInterval : Nat) : Nat × Bool :=
  let framesPerPacket := audioRate / txInterval
  if audioRate % txInterval ≠ 0 then (framesPerPacket + 1, true)
  else (framesPerPacket, false)

/-- C8: for txInterval > 0, `framesPerPacket = ceil(rate / txInterval)`:
it equals `rate / txInterval` exactly when txInterval divides rate (no
warning), and `rate / txInterval + 1` (with a warning) otherwise. -/
theorem C8_framesPerPacket_ceil (rate txInterval : Nat) (h : 0 < txInterval) :
    (x_calculateFramesPerPacket rate txInterval).1
        = (rate + txInterval - 1) / txInterval ∧
    (txInterval ∣ rate →
      (x_calculateFramesPerPacket rate txInterval)
        = (rate / txInterval, false)) ∧
    (¬ txInterval ∣ rate →
      (x_calculateFramesPerPacket rate txInterval)
        = (rate / txInterval + 1, true)) := by
  have hdm := Nat.div_add_mod rate txInterval
  have hmlt : rate % txInterval < txInterval := Nat.mod_lt _ h
  refine ⟨?_, ?_, ?_⟩
  · unfold x_calculateFramesPerPacket
    by_cases hz : rate % txInterval = 0
    · rw [if_neg (by simpa using hz)]
      show rate / txInterval = (rate + txInterval - 1) / txInterval
      obtain ⟨k, hk⟩ : txInterval ∣ rate := Nat.dvd_of_mod_eq_zero hz
      subst hk
      rw [Nat.mul_div_cancel_left k h,
        show txInterval * k + txInterval - 1 = (txInterval - 1) + txInterval * k by omega,
        Nat.add_mul_div_left _ _ h, Nat.div_eq_of_lt (by omega)]
      omega
    · rw [if_pos (by simpa using hz)]
      show rate / txInterval + 1 = (rate + txInterval - 1) / txInterval
      obtain ⟨k, hk⟩ : ∃ k, k = rate / txInterval := ⟨_, rfl⟩
      obtain ⟨m, hm⟩ : ∃ m, m = rate % txInterval := ⟨_, rfl⟩
      have hrate : rate = txInterval * k + m := by rw [hk, hm]; exact hdm.symm
      have hmm : m < txInterval := hm ▸ hmlt
      have hm0 : m ≠ 0 := by rw [hm]; exact hz
      rw [← hk,
        show rate + txInterval - 1 = (m - 1) + txInterval * (k + 1) by
          have hexp : txInterval * (k + 1) = txInterval * k + txInterval := by ring
          omega,
        Nat.add_mul_div_left _ _ h, Nat.div_eq_of_lt (by omega)]
      omega
  · intro hdvd
    have hz : rate % txInterval = 0 := Nat.mod_eq_zero_of_dvd hdvd
    unfold x_calculateFramesPerPacket
    rw [if_neg (by simpa using hz)]
  · intro hndvd
    have hz : rate % txInterval ≠ 0 := fun hc => hndvd (Nat.dvd_of_mod_eq_zero hc)
    unfold x_calculateFramesPerPacket
    rw [if_pos (by simpa using hz)]

/-! ## C2: rate code in the format-info word

`aaf_nominal_sample_rate_t` enum values (note `AAF_RATE_24K` was appended
after `AAF_RATE_192K`, matching the IEEE 1722-2016 nsr encoding), the
rate switch of `x_calculateSizes` (lines 213–258), and the format-info word
written by `openavbMapAVTPAudioTxCB` (lines 672–677). -/

def AAF_RATE_UNSPEC : Nat := 0
def AAF_RATE_8K : Nat := 1
def AAF_RATE_16K : Nat := 2
def AAF_RATE_32K : Nat := 3
def AAF_RATE_44K1 : Nat := 4
def AAF_RATE_48K : Nat := 5
def AAF_RATE_88K2 : Nat := 6
def AAF_RATE_96K : Nat := 7
def AAF_RATE_176K4 : Nat := 8
def AAF_RATE_192K : Nat := 9
def AAF_RATE_24K : Nat := 10

/-- The `pPubMapInfo->audioRate` switch of `x_calculateSizes`: configured
rate in Hz to `aaf_rate` enum value (`AAF_RATE_UNSPEC` on any other rate). -/
def x_calculateAafRate (audioRate : Nat) : Nat :=
  if audioRate = 8000 then AAF_RATE_8K
  else if audioRate = 16000 then AAF_RATE_16K
  else if audioRate = 24000 then AAF_RATE_24K
  else if audioRate = 32000 then AAF_RATE_32K
  else if audioRate = 44100 then AAF_RATE_44K1
  else if audioRate = 48000 then AAF_RATE_48K
  else if audioRate = 88200 then AAF_RATE_88K2
  else if audioRate = 96000 then AAF_RATE_96K
  else if audioRate = 176400 then AAF_RATE_176K4
  else if audioRate = 192000 then AAF_RATE_192K
  else AAF_RATE_UNSPEC

/-- The 32-bit format-info word built by `openavbMapAVTPAudioTxCB`:
`format << 24 | rate << 20 | channels << 8 | bit_depth` accumulated in a U32. -/
def txFormatInfo (format rate channels bitDepth : Nat) : Nat :=
  (((format <<< 24) ||| (rate <<< 20)) ||| ((channels <<< 8) ||| bitDepth)) % 4294967296

/-- Extraction of bits [23:20] of the format-info word, as the listener
does at line 849: `(format_info >> 20) & 0x0F`. -/
def formatInfoRateBits (w : Nat) : Nat := (w >>> 20) &&& 0xF

/-- The rate encoding as the spec's §3 list orders it: index of the rate in
(unspec, 8k, 16k, 24k, 32k, 44.1k, 48k, 88.2k, 96k, 176.4k, 192k). -/
def specRateListIndex (audioRate : Nat) : Nat :=
  if audioRate = 8000 then 1 else if audioRate = 16000 then 2
  else if audioRate = 24000 then 3 else if audioRate = 32000 then 4
  else if audioRate = 44100 then 5 else if audioRate = 48000 then 6
  else if audioRate = 88200 then 7 else if audioRate = 96000 then 8
  else if audioRate = 176400 then 9 else if audioRate = 192000 then 10
  else 0

theorem formatInfoRateBits_spec (format rate channels bitDepth : Nat)
    (hr : rate < 16) (hch : channels < 4096) (hbd : bitDepth < 256) :
    formatInfoRateBits (txFormatInfo format rate channels bitDepth) = rate := by
  unfold formatInfoRateBits txFormatInfo
  rw [show (0xF : Nat) = 2 ^ 4 - 1 from rfl, Nat.and_pow_two_sub_one_eq_mod,
    show (4294967296 : Nat) = 2 ^ 32 from rfl]
  have hch2 : ∀ j, 12 ≤ j → channels.testBit j = false := fun j hj =>
    Nat.testBit_lt_two_pow
      (lt_of_lt_of_le hch (Nat.pow_le_pow_right (show 0 < 2 by norm_num) hj))
  have hbd2 : ∀ j, 8 ≤ j → bitDepth.testBit j = false := fun j hj =>
    Nat.testBit_lt_two_pow
      (lt_of_lt_of_le hbd (Nat.pow_le_pow_right (show 0 < 2 by norm_num) hj))
  have hr2 : ∀ j, 4 ≤ j → rate.testBit j = false := fun j hj =>
    Nat.testBit_lt_two_pow
      (lt_of_lt_of_le hr (Nat.pow_le_pow_right (show 0 < 2 by norm_num) hj))
  apply Nat.eq_of_testBit_eq
  intro i
  by_cases hi : i < 4
  · have e1 : (decide (i < 4)) = true := by simp [hi]
    have e2 : (decide (20 + i < 32)) = true := by
      simp only [decide_eq_true_eq]; omega
    have e3 : (decide (20 + i ≥ 24)) = false := by
      simp only [ge_iff_le, decide_eq_false_iff_not]; omega
    have e3a : (decide (24 ≤ 20 + i)) = false := by
      simp only [decide_eq_false_iff_not]; omega
    have e4 : (decide (20 + i ≥ 20)) = true := by
      simp only [ge_iff_le, decide_eq_true_eq]; omega
    have e4a : (decide (20 ≤ 20 + i)) = true := by
      simp only [decide_eq_true_eq]; omega
    have e5 : (decide (20 + i ≥ 8)) = true := by
      simp only [ge_iff_le, decide_eq_true_eq]; omega
    have e5a : (decide (8 ≤ 20 + i)) = true := by
      simp only [decide_eq_true_eq]; omega
    have e6 : 20 + i - 20 = i := by omega
    have e7 : 20 + i - 8 = 12 + i := by omega
    have e8 : channels.testBit (12 + i) = false := hch2 _ (by omega)
    have e9 : bitDepth.testBit (20 + i) = false := hbd2 _ (by omega)
    simp only [Nat.testBit_mod_two_pow, Nat.testBit_shiftRight, Nat.testBit_lor,
      Nat.testBit_shiftLeft, e1, e2, e3, e3a, e4, e4a, e5, e5a, e6, e7, e8, e9,
      Bool.true_and, Bool.false_and, Bool.or_false, Bool.false_or]
  · have hrf : rate.testBit i = false := hr2 i (by omega)
    have e1 : (decide (i < 4)) = false := by
      simp only [decide_eq_false_iff_not]; omega
    simp only [Nat.testBit_mod_two_pow, e1, Bool.false_and, hrf]

/-- C2 counterexample: the claim that the rate code is the index in the
spec's list (unspec, 8k, 16k, 24k, 32k, 44.1k, 48k, 88.2k, 96k, 176.4k,
192k) fails at 24 kHz: the talker places code 10 in bits [23:20] of the
format-info word, while the spec-list index of 24 kHz is 3. -/
theorem C2_rate_code_counterexample :
    formatInfoRateBits (txFormatInfo 4 (x_calculateAafRate 24000) 2 16) = 10 ∧
    specRateListIndex 24000 = 3 ∧
    x_calculateAafRate 24000 ≠ specRateListIndex 24000 := by
  refine ⟨by decide, by decide, by decide⟩

/-- C2 amended: for every configured audio rate, the 4-bit code in bits
[23:20] of the talker's format-info word is the `aaf_nominal_sample_rate_t`
enum value of that rate, which is the spec-list index for the rates up to
16 kHz but then follows the IEEE 1722-2016 nsr table: 32 kHz → 3,
44.1 kHz → 4, 48 kHz → 5, 88.2 kHz → 6, 96 kHz → 7, 176.4 kHz → 8,
192 kHz → 9, and 24 kHz → 10 (appended last).  Holds for any format value
and any channel count < 2^12 and bit depth < 2^8 (both 10-bit and 8-bit
fields on the wire). -/
theorem C2_rate_code_amended (format channels bitDepth hz : Nat)
    (hch : channels < 4096) (hbd : bitDepth < 256) :
    (formatInfoRateBits (txFormatInfo format (x_calculateAafRate hz) channels bitDepth)
      = x_calculateAafRate hz) ∧
    x_calculateAafRate 8000 = 1 ∧ x_calculateAafRate 16000 = 2 ∧
    x_calculateAafRate 24000 = 10 ∧ x_calculateAafRate 32000 = 3 ∧
    x_calculateAafRate 44100 = 4 ∧ x_calculateAafRate 48000 = 5 ∧
    x_calculateAafRate 88200 = 6 ∧ x_calculateAafRate 96000 = 7 ∧
    x_calculateAafRate 176400 = 8 ∧ x_calculateAafRate 192000 = 9 := by
  have hlt : x_calculateAafRate hz < 16 := by
    unfold x_calculateAafRate
    split_ifs <;> decide
  exact ⟨formatInfoRateBits_spec format _ channels bitDepth hlt hch hbd,
    by decide, by decide, by decide, by decide, by decide, by decide,
    by decide, by decide, by decide, by decide⟩

/-- Witness for `C2_rate_code_amended`: stereo 16-bit at 48 kHz. -/
theorem C2_rate_code_amended_witness :
    (2 : Nat) < 4096 ∧ (16 : Nat) < 256 ∧
    formatInfoRateBits (txFormatInfo 4 (x_calculateAafRate 48000) 2 16)
      = x_calculateAafRate 48000 :=
  ⟨by decide, by decide, (C2_rate_code_amended 4 2 16 48000 (by decide) (by decide)).1⟩

/-! ## C3: sparse-mode timestamp handling in the talker -/

/-- The header bytes of the outgoing AVTPDU touched by the timestamp logic
of `openavbMapAVTPAudioTxCB`: `tvByte` is `pHdrV0[1]` (tv flag in bit 0),
`seqNum` is `pHdrV0[2]`, `tuByte` is `pHdrV0[3]` (tu flag in bit 0), and
`ts0..ts3` are bytes 12–15 (the `avtp_timestamp` field, big-endian). -/
structure tx_hdr_t where
  tvByte : Nat
  seqNum : Nat
  tuByte : Nat
  ts0 : Nat
  ts1 : Nat
  ts2 : Nat
  ts3 : Nat

/-- The timestamp portion of `openavbMapAVTPAudioTxCB` (lines 636–670):
in sparse mode with `(seq & 7) != 0`, or when the item's timestamp is
invalid, the tv and tu bits are cleared and the timestamp field zeroed;
otherwise tv is set, tu follows the uncertain flag, and `htonl(adjTs)` is
stored, where `adjTs` is the 32-bit timestamp after the max-transit (and,
with redundancy, redundancy-offset) additions. -/
def txWriteTimestamp (sparseMode : Bool) (tsValid tsUncertain : Bool)
    (adjTs : Nat) (h : tx_hdr_t) : tx_hdr_t :=
  if sparseMode = true ∧ h.seqNum &&& 0x07 ≠ 0 then
    { h with tvByte := h.tvByte &&& 0xFE, tuByte := h.tuByte &&& 0xFE,
             ts0 := 0, ts1 := 0, ts2 := 0, ts3 := 0 }
  else if tsValid = false then
    { h with tvByte := h.tvByte &&& 0xFE, tuByte := h.tuByte &&& 0xFE,
             ts0 := 0, ts1 := 0, ts2 := 0, ts3 := 0 }
  else
    { h with tvByte := h.tvByte ||| 0x01,
             tuByte := if tsUncertain then h.tuByte ||| 0x01 else h.tuByte &&& 0xFE,
             ts0 := (adjTs >>> 24) &&& 0xFF, ts1 := (adjTs >>> 16) &&& 0xFF,
             ts2 := (adjTs >>> 8) &&& 0xFF, ts3 := adjTs &&& 0xFF }

/-- C3: with sparse mode enabled and `(seq & 7) ≠ 0` the timestamp bytes
[12..16) are all zero and the tv bit (byte 1 bit 0) and tu bit (byte 3
bit 0) are cleared; with `(seq & 7) == 0` the tv bit is 1 iff the
media-queue item's timestamp was flagged valid. -/
theorem C3_sparse_timestamp (tsValid tsUncertain : Bool) (adjTs : Nat)
    (h : tx_hdr_t) :
    (h.seqNum &&& 7 ≠ 0 →
      (txWriteTimestamp true tsValid tsUncertain adjTs h).ts0 = 0 ∧
      (txWriteTimestamp true tsValid tsUncertain adjTs h).ts1 = 0 ∧
      (txWriteTimestamp true tsValid tsUncertain adjTs h).ts2 = 0 ∧
      (txWriteTimestamp true tsValid tsUncertain adjTs h).ts3 = 0 ∧
      (txWriteTimestamp true tsValid tsUncertain adjTs h).tvByte &&& 1 = 0 ∧
      (txWriteTimestamp true tsValid tsUncertain adjTs h).tuByte &&& 1 = 0) ∧
    (h.seqNum &&& 7 = 0 →
      ((txWriteTimestamp true tsValid tsUncertain adjTs h).tvByte &&& 1 = 1
        ↔ tsValid = true)) := by
  constructor
  · intro hseq
    unfold txWriteTimestamp
    rw [if_pos ⟨rfl, hseq⟩]
    exact ⟨rfl, rfl, rfl, rfl, and_FE_bit0 _, and_FE_bit0 _⟩
  · intro hseq
    unfold txWriteTimestamp
    rw [if_neg (by simp [hseq])]
    cases tsValid with
    | false =>
      rw [if_pos rfl]
      simp [and_FE_bit0]
    | true =>
      rw [if_neg (by simp)]
      simp [or_one_bit0]

/-- Witness for `C3_sparse_timestamp`: a header with sequence number 3
(so `seq & 7 ≠ 0`) and all flag bytes initially `0xFF`. -/
theorem C3_sparse_timestamp_witness :
    ((⟨255, 3, 255, 1, 2, 3, 4⟩ : tx_hdr_t).seqNum &&& 7 ≠ 0 ∧
      (txWriteTimestamp true true false 99 ⟨255, 3, 255, 1, 2, 3, 4⟩).ts0 = 0 ∧
      (txWriteTimestamp true true false 99 ⟨255, 3, 255, 1, 2, 3, 4⟩).tvByte &&& 1 = 0) ∧
    ((⟨255, 8, 255, 1, 2, 3, 4⟩ : tx_hdr_t).seqNum &&& 7 = 0 ∧
      ((txWriteTimestamp true true false 99 ⟨255, 8, 255, 1, 2, 3, 4⟩).tvByte &&& 1 = 1
        ↔ (true : Bool) = true)) := by
  constructor
  · have hc := (C3_sparse_timestamp true false 99 ⟨255, 3, 255, 1, 2, 3, 4⟩).1 (by decide)
    exact ⟨by decide, hc.1, hc.2.2.2.2.1⟩
  · exact ⟨by decide, (C3_sparse_timestamp true false 99 ⟨255, 8, 255, 1, 2, 3, 4⟩).2 (by decide)⟩

/-! ## Sample-format conversion (C7)

The integer format conversion loops of `openavbMapAVTPAudioRxCB`
(lines 954–976) and `openavbMapAVTPAudioRxLostCB` (lines 1115–1146):
per sample, `nIn` source bytes are either copied and zero-padded to `nOut`
bytes (IEEE 1722-2016 Clause 7.3.4) or truncated to the first `nOut` bytes.
For the integer formats, `nIn = 6 - in_format` and `nOut = 6 - out_format`. -/

/-- One sample of the conversion loop: pad with zeros when `nIn < nOut`,
otherwise copy `nOut` bytes and skip the remaining `nIn - nOut`. -/
def convertSample (nIn nOut : Nat) (sample : List Nat) : List Nat :=
  if nIn < nOut then sample.take nIn ++ List.replicate (nOut - nIn) 0
  else sample.take nOut

/-- The flat conversion loop over the input buffer (`pInData` advances by
`nIn` bytes per iteration until it reaches `pInDataEnd`).  The `0 < nIn`
guard is an embedding artifact: the C loop would not terminate for
`nIn = 0`, and all call sites have `nIn ∈ {2, 3, 4}`. -/
def convertLoop (nIn nOut : Nat) (input : List Nat) : List Nat :=
  if h : 0 < nIn ∧ input ≠ [] then
    convertSample nIn nOut (input.take nIn) ++ convertLoop nIn nOut (input.drop nIn)
  else []
termination_by input.length
decreasing_by
  rw [List.length_drop]
  have hpos : 0 < input.length := List.length_pos.mpr h.2
  omega

theorem convertLoop_nil (nIn nOut : Nat) : convertLoop nIn nOut [] = [] := by
  rw [convertLoop]
  simp

theorem convertLoop_chunk (nIn nOut : Nat) (s rest : List Nat)
    (hs : s.length = nIn) (hpos : 0 < nIn) :
    convertLoop nIn nOut (s ++ rest)
      = convertSample nIn nOut s ++ convertLoop nIn nOut rest := by
  rw [convertLoop]
  rw [dif_pos ⟨hpos, by
    intro hc
    rw [List.append_eq_nil] at hc
    rw [hc.1] at hs
    simp at hs
    omega⟩]
  rw [← hs, List.take_left, List.drop_left]

theorem convertSample_length (nIn nOut : Nat) (s : List Nat)
    (hs : s.length = nIn) (h : nOut ≤ nIn ∨ nIn ≤ nOut) :
    (convertSample nIn nOut s).length = nOut := by
  unfold convertSample
  by_cases hc : nIn < nOut
  · rw [if_pos hc]
    simp [List.length_take, hs]
    omega
  · rw [if_neg hc]
    simp [List.length_take, hs]
    omega

theorem convertLoop_flatten (nIn nOut : Nat) (samples : List (List Nat))
    (hall : ∀ s ∈ samples, s.length = nIn) (hpos : 0 < nIn) :
    convertLoop nIn nOut samples.flatten
      = (samples.map (convertSample nIn nOut)).flatten := by
  induction samples with
  | nil => simp [convertLoop_nil]
  | cons s rest ih =>
    rw [List.flatten_cons, convertLoop_chunk nIn nOut s rest.flatten
      (hall s (by simp)) hpos, List.map_cons, List.flatten_cons,
      ih (fun x hx => hall x (by simp [hx]))]

theorem convertSample_roundtrip_pad (nIn nOut : Nat) (s : List Nat)
    (hs : s.length = nIn) (h : nIn ≤ nOut) :
    convertSample nOut nIn (convertSample nIn nOut s) = s := by
  unfold convertSample
  by_cases hc : nIn < nOut
  · rw [if_pos hc, if_neg (show ¬ nOut < nIn by omega)]
    rw [List.take_append_of_le_length (by simp [hs]), List.take_take]
    rw [show nIn ⊓ nIn = s.length by omega]
    exact List.take_length s
  · rw [if_neg hc, if_neg (show ¬ nOut < nIn by omega), List.take_take]
    rw [show nIn ⊓ nOut = s.length by omega]
    exact List.take_length s

theorem convertSample_roundtrip_trunc (nIn nOut : Nat) (s : List Nat)
    (hs : s.length = nIn) (h : nOut < nIn) :
    convertSample nOut nIn (convertSample nIn nOut s)
      = s.take nOut ++ List.replicate (nIn - nOut) 0 := by
  unfold convertSample
  rw [if_pos h, if_neg (show ¬ nIn < nOut by omega), List.take_take]
  rw [show nOut ⊓ nOut = nOut by omega]

/-- C7: for integer format codes `a, b ∈ {2, 3, 4}` and a buffer of whole
samples of the source format (each `6 − a` bytes), converting `a → b → a`
returns the original bytes when `a ≥ b` (widening round-trip, `6−a ≤ 6−b`);
when `a < b` it preserves the first `6 − b` bytes of each sample and zeroes
its low `(6−a) − (6−b)` bytes. -/
theorem C7_convert_roundtrip (a b : Nat) (samples : List (List Nat))
    (ha2 : 2 ≤ a) (ha4 : a ≤ 4) (hb2 : 2 ≤ b) (hb4 : b ≤ 4)
    (hs : ∀ s ∈ samples, s.length = 6 - a) :
    (b ≤ a → convertLoop (6 - b) (6 - a)
        (convertLoop (6 - a) (6 - b) samples.flatten) = samples.flatten) ∧
    (a < b → convertLoop (6 - b) (6 - a)
        (convertLoop (6 - a) (6 - b) samples.flatten)
      = (samples.map (fun s =>
          s.take (6 - b) ++ List.replicate ((6 - a) - (6 - b)) 0)).flatten) := by
  have hposa : 0 < 6 - a := by omega
  have hposb : 0 < 6 - b := by omega
  have hfirst := convertLoop_flatten (6 - a) (6 - b) samples hs hposa
  have hconvlen : ∀ s ∈ samples.map (convertSample (6 - a) (6 - b)),
      s.length = 6 - b := by
    intro s hsmem
    rw [List.mem_map] at hsmem
    obtain ⟨t, ht, rfl⟩ := hsmem
    exact convertSample_length _ _ t (hs t ht) (by omega)
  have hsecond := convertLoop_flatten (6 - b) (6 - a)
    (samples.map (convertSample (6 - a) (6 - b))) hconvlen hposb
  constructor
  · intro hba
    have hmap : samples.map
          (convertSample (6 - b) (6 - a) ∘ convertSample (6 - a) (6 - b))
        = samples.map id :=
      List.map_congr_left (fun s hsmem => by
        show convertSample (6 - b) (6 - a) (convertSample (6 - a) (6 - b) s) = s
        exact convertSample_roundtrip_pad (6 - a) (6 - b) s (hs s hsmem) (by omega))
    rw [hfirst, hsecond, List.map_map, hmap, List.map_id]
  · intro hab
    rw [hfirst, hsecond, List.map_map]
    congr 1
    apply List.map_congr_left
    intro s hsmem
    simp only [Function.comp]
    exact convertSample_roundtrip_trunc (6 - a) (6 - b) s (hs s hsmem) (by omega)

/-- Witness for `C7_convert_roundtrip`: one int16 sample (2 bytes) through
int32 and back is unchanged; one int32 sample (4 bytes) through int16 and
back keeps its first 2 bytes and zeroes the low 2. -/
theorem C7_convert_roundtrip_witness :
    (convertLoop (6 - 2) (6 - 4) (convertLoop (6 - 4) (6 - 2) [[17, 34]].flatten)
        = [[17, 34]].flatten) ∧
    (convertLoop (6 - 4) (6 - 2) (convertLoop (6 - 2) (6 - 4) [[1, 2, 3, 4]].flatten)
        = ([[1, 2, 3, 4]].map (fun s =>
            s.take (6 - 4) ++ List.replicate ((6 - 2) - (6 - 4)) 0)).flatten) := by
  constructor
  · exact (C7_convert_roundtrip 4 2 [[17, 34]] (by decide) (by decide) (by decide)
      (by decide) (by decide)).1 (by decide)
  · exact (C7_convert_roundtrip 2 4 [[1, 2, 3, 4]] (by decide) (by decide) (by decide)
      (by decide) (by decide)).2 (by decide)

/-! ## Listener model (`openavbMapAVTPAudioRxCB`, `openavbMapAVTPAudioRxLostCB`)

The session struct `pvt_data_t` (listener-relevant fields, with the
`pPubMapInfo` fields `audioChannels`, `framesPerPacket`,
`presentationLatencyUSec` folded in), an arrived AVTPDU, and the media
queue modelled as the currently filled head item plus the list of pushed
items.  `openavbMediaQHeadLock` is modelled as always succeeding (the media
queue is an external collaborator; its full path returns early without
touching the session state).  `intf_rx_translate_cb` is modelled as absent
(the optional hook is NULL).  Log output is not modelled except for the two
mute-transition messages, which are returned as events. -/

def AAF_FORMAT_UNSPEC : Nat := 0
def AAF_FORMAT_FLOAT_32 : Nat := 1
def AAF_FORMAT_INT_32 : Nat := 2
def AAF_FORMAT_INT_24 : Nat := 3
def AAF_FORMAT_INT_16 : Nat := 4
def AAF_FORMAT_AES3_32 : Nat := 5

/-- Modelled from the spec: the AVTP time handle (`openavb_avtp_time_pub.h`
is not among the sources); §6 lists `isValid`, `isUncertain`, `setValid`,
`setUncertain`, `setToTimestamp`, `subUSec` — modelled as a record holding
the valid/uncertain flags and the 32-bit timestamp value. -/
structure avtp_time_t where
  valid : Bool
  uncertain : Bool
  timestamp : Nat

/-- Modelled from the spec: `openavbAvtpTimeSubUSec` subtracts the
presentation latency from the stored timestamp (32-bit arithmetic). -/
def avtpTimeSubUsec (ts usec : Nat) : Nat :=
  (ts + 4294967296 - usec % 4294967296) % 4294967296

/-- A media queue item (`media_q_item_t`): its payload buffer, fill level,
capacity and AVTP-time handle. -/
structure media_q_item_t where
  pPubData : Nat → Nat
  dataLen : Nat
  itemSize : Nat
  pAvtpTime : avtp_time_t

/-- A fresh (empty) media queue item as handed out by the media queue. -/
def freshItem (itemSize : Nat) : media_q_item_t :=
  ⟨fun _ => 0, 0, itemSize, ⟨false, false, 0⟩⟩

/-- The listener-relevant session state (`pvt_data_t` plus the
`pPubMapInfo` fields it reads, plus the modelled media queue head). -/
structure pvt_data_t where
  aaf_format : Nat
  aaf_rate : Nat
  aaf_bit_depth : Nat
  aaf_event_field : Nat
  payloadSize : Nat
  audioChannels : Nat
  framesPerPacket : Nat
  presentationLatencyUSec : Nat
  sparseMode : Bool
  temporalRedundantOffsetUsec : Nat
  temporalRedundantQueueFrameSize : Nat
  dataValid : Bool
  mediaQItemSyncTS : Bool
  temporalRedundantQueue : circular_queue_t
  trStatsEntryTypeQueue : circular_queue_t
  trStatsTotalFrames : Nat
  trStatsLostFrames : Nat
  trStatsNeededAvailable : Nat
  trStatsNeededNotAvailable : Nat
  report_seconds : Nat
  nextReportNS : Nat
  currentItem : media_q_item_t
  pushedItems : List media_q_item_t

/-- An arrived AVTPDU as the rx callback reads it: flag bits, the three
32-bit words at offsets 12, 16 and 20 (already byte-swapped by `ntohl`),
the total frame length, and the payload bytes from offset 24. -/
structure rx_packet_t where
  tvBit : Bool
  tuBit : Bool
  spBit : Bool
  timestamp : Nat
  format_info : Nat
  packet_info : Nat
  dataLen : Nat
  payload : List Nat

/-- Field `payloadLen`: `ntohs` of header bytes 20..21, equal to
`(packet_info >> 16) & 0xFFFF`. -/
def rxPayloadLen (p : rx_packet_t) : Nat := (p.packet_info >>> 16) &&& 0xFFFF

/-- Field `incoming_aaf_format`: the top byte of the format-info word. -/
def rxIncomingFormat (p : rx_packet_t) : Nat := (p.format_info >>> 24) &&& 0xFF

/-- Flag `dataConversionEnabled` (lines 835–848): set when the incoming format
differs from the configured one but both are integer formats. -/
def rxDataConversionEnabled (s : pvt_data_t) (p : rx_packet_t) : Bool :=
  decide (rxIncomingFormat p ≠ s.aaf_format) &&
  (decide (AAF_FORMAT_INT_32 ≤ rxIncomingFormat p) &&
   decide (rxIncomingFormat p ≤ AAF_FORMAT_INT_16) &&
   decide (AAF_FORMAT_INT_32 ≤ s.aaf_format) &&
   decide (s.aaf_format ≤ AAF_FORMAT_INT_16))

/-- The payload-size check (lines 867–884): invalid when the header length
field differs from the configured `payloadSize`, unless conversion is
enabled and the per-sample counts agree
(`tmp / nInSampleLength == payloadSize / nOutSampleLength`). -/
def rxLengthCheckInvalid (s : pvt_data_t) (p : rx_packet_t) : Bool :=
  if rxPayloadLen p ≠ s.payloadSize then
    if rxDataConversionEnabled s p = false then true
    else if rxPayloadLen p / (6 - rxIncomingFormat p)
        ≠ s.payloadSize / (6 - s.aaf_format) then true
    else false
  else false

/-- The header validation of `openavbMapAVTPAudioRxCB` (lines 828–884):
the conjunction of the sequential checks that clear the local `dataValid`
flag.  The length bound uses the C unsigned evaluation of
`dataLen - TOTAL_HEADER_SIZE` (U32 wrap-around for `dataLen < 24`).  The
event-field mismatch (line 885) only logs and does not clear the flag. -/
def rxHeaderDataValid (s : pvt_data_t) (p : rx_packet_t) : Bool :=
  decide (rxPayloadLen p ≤ (p.dataLen + 4294967296 - 24) % 4294967296) &&
  (decide (rxIncomingFormat p = s.aaf_format) || rxDataConversionEnabled s p) &&
  decide ((p.format_info >>> 20) &&& 0xF = s.aaf_rate) &&
  decide ((p.format_info >>> 8) &&& 0x3FF = s.audioChannels) &&
  decide ((p.format_info &&& 0xFF) ≠ 0) &&
  ! rxLengthCheckInvalid s p

/-- Sparse-mode adoption (lines 890–899): the local sparse-mode setting is
aligned with the stream's sp bit in both mismatch directions. -/
def rxAdoptSparse (s : pvt_data_t) (p : rx_packet_t) : pvt_data_t :=
  { s with sparseMode := p.spBit }

/-- One-way redundancy disable (lines 901–905): when the frame cannot hold
two payloads, temporal redundancy is turned off for the session. -/
def rxMaybeDisableRedundancy (s : pvt_data_t) (p : rx_packet_t) : pvt_data_t :=
  if s.temporalRedundantOffsetUsec > 0 ∧ p.dataLen < 24 + 2 * rxPayloadLen p then
    { s with temporalRedundantOffsetUsec := 0 }
  else s

/-- The empty-item timestamp handling (lines 917–938): on the first write to
an item, the timestamp-valid flag is taken from tv; a valid timestamp is
stored (minus the presentation latency) with the uncertain flag from tu and
sets `mediaQItemSyncTS`; an invalid timestamp before the first sync drops
the packet (third component `false`). -/
def rxTimestampPhase (s : pvt_data_t) (p : rx_packet_t) :
    pvt_data_t × media_q_item_t × Bool :=
  let item := s.currentItem
  if item.dataLen = 0 then
    if p.tvBit then
      ({ s with mediaQItemSyncTS := true },
       { item with pAvtpTime :=
          ⟨true, p.tuBit, avtpTimeSubUsec p.timestamp s.presentationLatencyUSec⟩ },
       true)
    else
      (s, { item with pAvtpTime := { item.pAvtpTime with valid := false } },
       ! s.mediaQItemSyncTS = true)
  else (s, item, true)

/-- The payload write into the media-queue item (lines 940–986): raw copy of
`payloadSize` bytes, or the conversion loop over the incoming `payloadLen`
bytes; `dataLen` always advances by the configured `payloadSize`. -/
def rxWritePayload (s : pvt_data_t) (p : rx_packet_t) (conv : Bool)
    (item : media_q_item_t) : media_q_item_t :=
  let written : List Nat :=
    if conv = false then p.payload.take s.payloadSize
    else convertLoop (6 - rxIncomingFormat p) (6 - s.aaf_format)
      (p.payload.take (rxPayloadLen p))
  { item with
    pPubData := memWrite item.pPubData item.dataLen
      (fun i => written.getD i 0) written.length,
    dataLen := item.dataLen + s.payloadSize }

/-- Item unlock/push (lines 989–996). -/
def rxPushOrUnlock (s : pvt_data_t) (item : media_q_item_t) : pvt_data_t :=
  if item.dataLen < item.itemSize then { s with currentItem := item }
  else { s with
         currentItem := freshItem item.itemSize
         pushedItems := s.pushedItems ++ [item] }

/-- The statistics report (lines 1023–1042): on an elapsed deadline the four
counters are reset and the deadline advances by `report_seconds`, re-anchored
to now when the clock has jumped past it. -/
def rxStatsReport (s : pvt_data_t) (nowNS : Nat) : pvt_data_t :=
  if s.report_seconds > 0 ∧ nowNS > s.nextReportNS then
    let next1 := s.nextReportNS + s.report_seconds * 1000000000
    let next2 := if nowNS > next1 then nowNS + s.report_seconds * 1000000000 else next1
    { s with
      trStatsTotalFrames := 0
      trStatsLostFrames := 0
      trStatsNeededAvailable := 0
      trStatsNeededNotAvailable := 0
      nextReportNS := next2 }
  else s

/-- The listener redundancy bookkeeping (lines 998–1043): push the incoming
format byte and the redundant payload slot (padded to the frame size), pull
and discard the aged-out entries, count the frame, and maybe report. -/
def rxRedundancyPhase (s : pvt_data_t) (p : rx_packet_t) (nowNS : Nat) : pvt_data_t :=
  let payloadLen := rxPayloadLen p
  let q1 := PushBufferToCircularQueue s.trStatsEntryTypeQueue
    (some fun _ => rxIncomingFormat p) 1
  let q2 := PushBufferToCircularQueue s.temporalRedundantQueue
    (some fun i => ((p.payload.drop payloadLen).take payloadLen).getD i 0) payloadLen
  let q3 := if payloadLen < s.temporalRedundantQueueFrameSize then
      PushBufferToCircularQueue q2 none (s.temporalRedundantQueueFrameSize - payloadLen)
    else q2
  let pr := PullBufferFromCircularQueue q1 1
  let q4 := (PullBufferFromCircularQueue q3 s.temporalRedundantQueueFrameSize).1
  rxStatsReport
    { s with
      trStatsEntryTypeQueue := pr.1
      temporalRedundantQueue := q4
      trStatsTotalFrames := s.trStatsTotalFrames + 1 }
    nowNS

/-- The media-queue section of the rx callback (lines 913–1046), on the
valid path. -/
def rxProcessMediaQ (s : pvt_data_t) (p : rx_packet_t) (conv : Bool)
    (nowNS : Nat) : pvt_data_t :=
  let ts := rxTimestampPhase s p
  let item2 := if ts.2.2 then rxWritePayload ts.1 p conv ts.2.1 else ts.2.1
  let s2 := rxPushOrUnlock ts.1 item2
  if s2.temporalRedundantOffsetUsec > 0 then rxRedundancyPhase s2 p nowNS else s2

/-- Mute-transition log events of the listener ("RX data invalid, stream
muted" / "RX data valid, stream un-muted"). -/
inductive mute_event_t where
  | muted
  | unmuted
deriving DecidableEq

/-- Source function `openavbMapAVTPAudioRxCB`: validate the header, adopt the stream's
sparse mode, maybe disable redundancy, then either process the packet
(un-muting first if needed) or mute the stream.  Returns the new session
state, the callback's boolean result, and the mute-transition events
logged. -/
def openavbMapAVTPAudioRxCB (s : pvt_data_t) (p : rx_packet_t) (nowNS : Nat) :
    pvt_data_t × Bool × List mute_event_t :=
  let conv := rxDataConversionEnabled s p
  let v := rxHeaderDataValid s p
  let s2 := rxMaybeDisableRedundancy (rxAdoptSparse s p) p
  if v then
    let ev := if s2.dataValid then [] else [mute_event_t.unmuted]
    (rxProcessMediaQ { s2 with dataValid := true } p conv nowNS, true, ev)
  else
    if s2.dataValid then
      ({ s2 with dataValid := false }, false, [mute_event_t.muted])
    else (s2, false, [])

/-- Iterated rx callbacks; each input is a packet plus the monotonic clock
value observed while handling it.  The collected events are in order. -/
def rxRun (s : pvt_data_t) : List (rx_packet_t × Nat) → pvt_data_t × List mute_event_t
  | [] => (s, [])
  | (p, now) :: rest =>
    let st := openavbMapAVTPAudioRxCB s p now
    let r := rxRun st.1 rest
    (r.1, st.2.2 ++ r.2)

/-- Function `openavbMapAVTPAudioGenInitCB` ends by setting `dataValid = TRUE`
(line 534). -/
def genInitDataValid (s : pvt_data_t) : pvt_data_t := { s with dataValid := true }

/-- Item release plus the blank recovery slot of `openavbMapAVTPAudioRxLostCB`
(lines 1174–1186): push or unlock the item, then push an `AAF_FORMAT_UNSPEC`
marker and a zero frame so the lost slot ages out normally. -/
def rxLostFinish (s : pvt_data_t) (item : media_q_item_t) : pvt_data_t :=
  let s1 := if item.dataLen < item.itemSize then { s with currentItem := item }
    else { s with
           currentItem := freshItem item.itemSize
           pushedItems := s.pushedItems ++ [item] }
  { s1 with
    trStatsEntryTypeQueue := PushBufferToCircularQueue s1.trStatsEntryTypeQueue
      (some fun _ => AAF_FORMAT_UNSPEC) 1
    temporalRedundantQueue := PushBufferToCircularQueue s1.temporalRedundantQueue
      none s1.temporalRedundantQueueFrameSize }

/-- One iteration of the `while (numLost-- > 0)` loop of
`openavbMapAVTPAudioRxLostCB` (lines 1073–1187): count the lost frame, clear
the item's timestamp, pull the recovery format byte, then synthesize the
item contents from the redundancy queue (zeros, converted data, or a direct
copy). -/
def rxLostBody (s : pvt_data_t) : pvt_data_t :=
  let item := s.currentItem
  let s1 := { s with
    trStatsTotalFrames := s.trStatsTotalFrames + 1
    trStatsLostFrames := s.trStatsLostFrames + 1 }
  let item1 := { item with pAvtpTime := { item.pAvtpTime with valid := false } }
  let pr := PullBufferFromCircularQueue s1.trStatsEntryTypeQueue 1
  let s2 := { s1 with trStatsEntryTypeQueue := pr.1 }
  let dataFormat := pr.2.getD 0 0
  if dataFormat = AAF_FORMAT_UNSPEC then
    let s3 := { s2 with trStatsNeededNotAvailable := s2.trStatsNeededNotAvailable + 1 }
    let pq := PullBufferFromCircularQueue s3.temporalRedundantQueue s3.payloadSize
    let item2 := { item1 with
      pPubData := memWrite item1.pPubData item1.dataLen
        (fun i => pq.2.getD i 0) s3.payloadSize
      dataLen := item1.dataLen + s3.payloadSize }
    let q2 := if s3.payloadSize < s3.temporalRedundantQueueFrameSize then
        (PullBufferFromCircularQueue pq.1
          (s3.temporalRedundantQueueFrameSize - s3.payloadSize)).1
      else pq.1
    rxLostFinish { s3 with temporalRedundantQueue := q2 } item2
  else
    let s3 := { s2 with trStatsNeededAvailable := s2.trStatsNeededAvailable + 1 }
    if dataFormat ≠ s3.aaf_format ∧ AAF_FORMAT_INT_32 ≤ dataFormat ∧
        dataFormat ≤ AAF_FORMAT_INT_16 ∧ AAF_FORMAT_INT_32 ≤ s3.aaf_format ∧
        s3.aaf_format ≤ AAF_FORMAT_INT_16 then
      let nIn := 6 - dataFormat
      let nOut := 6 - s3.aaf_format
      let payloadLen := nIn * s3.audioChannels * s3.framesPerPacket
      let pq := PullBufferFromCircularQueue s3.temporalRedundantQueue
        s3.temporalRedundantQueueFrameSize
      let written := convertLoop nIn nOut (pq.2.take payloadLen)
      let item2 := { item1 with
        pPubData := memWrite item1.pPubData item1.dataLen
          (fun i => written.getD i 0) written.length
        dataLen := item1.dataLen + s3.payloadSize }
      rxLostFinish { s3 with temporalRedundantQueue := pq.1 } item2
    else
      let pq := PullBufferFromCircularQueue s3.temporalRedundantQueue s3.payloadSize
      let item2 := { item1 with
        pPubData := memWrite item1.pPubData item1.dataLen
          (fun i => pq.2.getD i 0) s3.payloadSize
        dataLen := item1.dataLen + s3.payloadSize }
      let q2 := if s3.payloadSize < s3.temporalRedundantQueueFrameSize then
          (PullBufferFromCircularQueue pq.1
            (s3.temporalRedundantQueueFrameSize - s3.payloadSize)).1
        else pq.1
      rxLostFinish { s3 with temporalRedundantQueue := q2 } item2

/-- The `while (numLost-- > 0)` loop. -/
def rxLostLoop (s : pvt_data_t) : Nat → pvt_data_t
  | 0 => s
  | Nat.succ k => rxLostLoop (rxLostBody s) k

/-- Source function `openavbMapAVTPAudioRxLostCB`: active only with redundancy enabled and
the stream unmuted; the function has a single exit that returns FALSE. -/
def openavbMapAVTPAudioRxLostCB (s : pvt_data_t) (numLost : Nat) :
    pvt_data_t × Bool :=
  if s.temporalRedundantOffsetUsec > 0 ∧ s.dataValid = true then
    (rxLostLoop s numLost, false)
  else (s, false)

/-- C9: the rx_lost loss-concealment callback returns false for every input
(every session state and every numLost count), including when redundancy is
enabled, the stream is unmuted, and concealment data was synthesized. -/
theorem C9_rxLost_returns_false (s : pvt_data_t) (numLost : Nat) :
    (openavbMapAVTPAudioRxLostCB s numLost).2 = false := by
  unfold openavbMapAVTPAudioRxLostCB
  split <;> rfl

theorem rxLostFinish_dataValid (s : pvt_data_t) (item : media_q_item_t) :
    (rxLostFinish s item).dataValid = s.dataValid := by
  unfold rxLostFinish
  dsimp only
  split <;> rfl

theorem rxLostBody_dataValid (s : pvt_data_t) :
    (rxLostBody s).dataValid = s.dataValid := by
  unfold rxLostBody
  dsimp only
  split
  · rw [rxLostFinish_dataValid]
  · split
    · rw [rxLostFinish_dataValid]
    · rw [rxLostFinish_dataValid]

theorem rxLostLoop_dataValid (n : Nat) (s : pvt_data_t) :
    (rxLostLoop s n).dataValid = s.dataValid := by
  induction n generalizing s with
  | zero => rfl
  | succ k ih =>
    show (rxLostLoop (rxLostBody s) k).dataValid = s.dataValid
    rw [ih, rxLostBody_dataValid]

theorem rxLostCB_dataValid (s : pvt_data_t) (numLost : Nat) :
    (openavbMapAVTPAudioRxLostCB s numLost).1.dataValid = s.dataValid := by
  unfold openavbMapAVTPAudioRxLostCB
  split
  · exact rxLostLoop_dataValid numLost s
  · rfl

theorem rxStatsReport_dataValid (s : pvt_data_t) (now : Nat) :
    (rxStatsReport s now).dataValid = s.dataValid := by
  unfold rxStatsReport
  dsimp only
  split <;> rfl

theorem rxRedundancyPhase_dataValid (s : pvt_data_t) (p : rx_packet_t) (now : Nat) :
    (rxRedundancyPhase s p now).dataValid = s.dataValid := by
  unfold rxRedundancyPhase
  dsimp only
  rw [rxStatsReport_dataValid]

theorem rxPushOrUnlock_dataValid (s : pvt_data_t) (item : media_q_item_t) :
    (rxPushOrUnlock s item).dataValid = s.dataValid := by
  unfold rxPushOrUnlock
  split <;> rfl

theorem rxTimestampPhase_dataValid (s : pvt_data_t) (p : rx_packet_t) :
    (rxTimestampPhase s p).1.dataValid = s.dataValid := by
  unfold rxTimestampPhase
  dsimp only
  split
  · split <;> rfl
  · rfl

theorem rxProcessMediaQ_dataValid (s : pvt_data_t) (p : rx_packet_t)
    (conv : Bool) (now : Nat) :
    (rxProcessMediaQ s p conv now).dataValid = s.dataValid := by
  unfold rxProcessMediaQ
  dsimp only
  split <;> split <;>
    first
      | rw [rxRedundancyPhase_dataValid, rxPushOrUnlock_dataValid,
          rxTimestampPhase_dataValid]
      | rw [rxPushOrUnlock_dataValid, rxTimestampPhase_dataValid]

/-- Count of "stream muted" log events. -/
def countMuted : List mute_event_t → Nat
  | [] => 0
  | mute_event_t.muted :: rest => countMuted rest + 1
  | mute_event_t.unmuted :: rest => countMuted rest

/-- Count of "stream un-muted" log events. -/
def countUnmuted : List mute_event_t → Nat
  | [] => 0
  | mute_event_t.muted :: rest => countUnmuted rest
  | mute_event_t.unmuted :: rest => countUnmuted rest + 1

/-- Strict alternation of mute events relative to the current `dataValid`
state: from an unmuted state the next event must be "muted" and vice
versa. -/
def muteAltOk : Bool → List mute_event_t → Bool
  | _, [] => true
  | true, mute_event_t.muted :: rest => muteAltOk false rest
  | true, mute_event_t.unmuted :: _ => false
  | false, mute_event_t.unmuted :: rest => muteAltOk true rest
  | false, mute_event_t.muted :: _ => false

theorem rxCB_mute_step (s : pvt_data_t) (p : rx_packet_t) (now : Nat) :
    (openavbMapAVTPAudioRxCB s p now).1.dataValid = rxHeaderDataValid s p ∧
    (openavbMapAVTPAudioRxCB s p now).2.2 =
      (if rxHeaderDataValid s p = true ∧ s.dataValid = false then [mute_event_t.unmuted]
       else if rxHeaderDataValid s p = false ∧ s.dataValid = true then [mute_event_t.muted]
       else []) := by
  have hs2v : (rxMaybeDisableRedundancy (rxAdoptSparse s p) p).dataValid
      = s.dataValid := by
    unfold rxMaybeDisableRedundancy rxAdoptSparse
    split <;> rfl
  unfold openavbMapAVTPAudioRxCB
  dsimp only
  cases hvb : rxHeaderDataValid s p <;> cases hdv : s.dataValid <;>
    simp [hvb, hdv, hs2v, rxProcessMediaQ_dataValid]

theorem rxRun_mute (inputs : List (rx_packet_t × Nat)) (s : pvt_data_t) :
    muteAltOk s.dataValid (rxRun s inputs).2 = true ∧
    countMuted (rxRun s inputs).2 + (if s.dataValid then 0 else 1)
      = countUnmuted (rxRun s inputs).2
        + (if (rxRun s inputs).1.dataValid then 0 else 1) := by
  induction inputs generalizing s with
  | nil => simp [rxRun, muteAltOk, countMuted, countUnmuted]
  | cons pr rest ih =>
    obtain ⟨p, now⟩ := pr
    obtain ⟨hstepv, hstepev⟩ := rxCB_mute_step s p now
    have hrun : rxRun s ((p, now) :: rest)
        = ((rxRun (openavbMapAVTPAudioRxCB s p now).1 rest).1,
           (openavbMapAVTPAudioRxCB s p now).2.2
             ++ (rxRun (openavbMapAVTPAudioRxCB s p now).1 rest).2) := rfl
    rw [hrun]
    rw [hstepev]
    obtain ⟨ih1, ih2⟩ := ih (openavbMapAVTPAudioRxCB s p now).1
    rw [hstepv] at ih1 ih2
    cases hvb : rxHeaderDataValid s p <;> cases hdv : s.dataValid <;>
      rw [hvb] at ih1 ih2 <;> refine ⟨?_, ?_⟩
    · simp [muteAltOk, ih1]
    · simp [countMuted, countUnmuted] at ih2 ⊢
      omega
    · simp [muteAltOk, ih1]
    · simp [countMuted, countUnmuted] at ih2 ⊢
      omega
    · simp [muteAltOk, ih1]
    · simp [countMuted, countUnmuted] at ih2 ⊢
      omega
    · simp [muteAltOk, ih1]
    · simp [countMuted, countUnmuted] at ih2 ⊢
      omega

/-- A concrete listener configuration: 48 kHz stereo int16, payload 24
bytes, no redundancy, for counterexamples and witnesses. -/
def listenerTestState : pvt_data_t where
  aaf_format := 4
  aaf_rate := 5
  aaf_bit_depth := 16
  aaf_event_field := 0
  payloadSize := 24
  audioChannels := 2
  framesPerPacket := 6
  presentationLatencyUSec := 0
  sparseMode := false
  temporalRedundantOffsetUsec := 0
  temporalRedundantQueueFrameSize := 48
  dataValid := true
  mediaQItemSyncTS := false
  temporalRedundantQueue := ⟨0, fun _ => 0, 0, 0⟩
  trStatsEntryTypeQueue := ⟨0, fun _ => 0, 0, 0⟩
  trStatsTotalFrames := 0
  trStatsLostFrames := 0
  trStatsNeededAvailable := 0
  trStatsNeededNotAvailable := 0
  report_seconds := 0
  nextReportNS := 0
  currentItem := freshItem 24
  pushedItems := []

/-- An AVTPDU whose rate field (9 = 192 kHz) mismatches the configured rate
of `listenerTestState` (5 = 48 kHz): validation fails. -/
def c4BadPacket : rx_packet_t where
  tvBit := true
  tuBit := false
  spBit := false
  timestamp := 0
  format_info := txFormatInfo 4 9 2 16
  packet_info := 24 <<< 16
  dataLen := 48
  payload := List.replicate 24 0

/-- C4 counterexample: the claim that the muted and un-muted counts are
equal for every packet sequence fails: starting from the gen-init state
(dataValid = true), a single invalid packet produces one "muted" event and
zero "un-muted" events. -/
theorem C4_mute_counts_counterexample :
    countMuted (rxRun (genInitDataValid listenerTestState) [(c4BadPacket, 0)]).2 = 1 ∧
    countUnmuted (rxRun (genInitDataValid listenerTestState) [(c4BadPacket, 0)]).2 = 0 := by
  refine ⟨by decide, by decide⟩

/-- C4 amended: dataValid starts true after gen-init; per callback, a
"muted" event is logged exactly on the transition true → false (validation
failure) and an "un-muted" event exactly on false → true (valid header),
and the post-callback dataValid equals the packet's validation result; over
any run the events alternate strictly; the counts satisfy
muted = un-muted + (1 if the stream ends muted else 0), so they are equal
exactly when the stream ends un-muted; and the rx_lost loss callback never
changes dataValid. -/
theorem C4_mute_state_machine (s0 sL : pvt_data_t) (p0 : rx_packet_t)
    (now0 numLost : Nat) (inputs : List (rx_packet_t × Nat)) :
    (genInitDataValid s0).dataValid = true ∧
    ((openavbMapAVTPAudioRxCB sL p0 now0).1.dataValid = rxHeaderDataValid sL p0 ∧
      (openavbMapAVTPAudioRxCB sL p0 now0).2.2 =
        (if rxHeaderDataValid sL p0 = true ∧ sL.dataValid = false
         then [mute_event_t.unmuted]
         else if rxHeaderDataValid sL p0 = false ∧ sL.dataValid = true
         then [mute_event_t.muted]
         else [])) ∧
    muteAltOk true (rxRun (genInitDataValid s0) inputs).2 = true ∧
    countMuted (rxRun (genInitDataValid s0) inputs).2
      = countUnmuted (rxRun (genInitDataValid s0) inputs).2
        + (if (rxRun (genInitDataValid s0) inputs).1.dataValid then 0 else 1) ∧
    (openavbMapAVTPAudioRxLostCB sL numLost).1.dataValid = sL.dataValid := by
  refine ⟨rfl, rxCB_mute_step sL p0 now0, ?_, ?_, rxLostCB_dataValid sL numLost⟩
  · exact (rxRun_mute inputs (genInitDataValid s0)).1
  · have h2 := (rxRun_mute inputs (genInitDataValid s0)).2
    simpa [genInitDataValid] using h2

/-- C5: for a received packet whose stream_data_length field differs from
the configured payloadSize, the payload-size check marks the packet invalid
when integer conversion is not enabled; with conversion enabled it marks it
invalid exactly when the sample counts differ,
`incoming / (6 − in_fmt) ≠ payloadSize / (6 − out_fmt)`; in either case a
failed check forces the header validation (and hence the mute machine's
input) to false. -/
theorem C5_payload_length_check (s : pvt_data_t) (p : rx_packet_t)
    (hne : rxPayloadLen p ≠ s.payloadSize) :
    (rxDataConversionEnabled s p = false →
      rxLengthCheckInvalid s p = true ∧ rxHeaderDataValid s p = false) ∧
    (rxDataConversionEnabled s p = true →
      ((rxLengthCheckInvalid s p = true ↔
        rxPayloadLen p / (6 - rxIncomingFormat p)
          ≠ s.payloadSize / (6 - s.aaf_format)) ∧
       (rxLengthCheckInvalid s p = true → rxHeaderDataValid s p = false))) := by
  constructor
  · intro hconv
    have hinvalid : rxLengthCheckInvalid s p = true := by
      unfold rxLengthCheckInvalid
      rw [if_pos hne, if_pos hconv]
    exact ⟨hinvalid, by simp [rxHeaderDataValid, hinvalid]⟩
  · intro hconv
    have hiff : rxLengthCheckInvalid s p = true ↔
        rxPayloadLen p / (6 - rxIncomingFormat p)
          ≠ s.payloadSize / (6 - s.aaf_format) := by
      unfold rxLengthCheckInvalid
      rw [if_pos hne, if_neg (by simp [hconv])]
      by_cases hsc : rxPayloadLen p / (6 - rxIncomingFormat p)
          = s.payloadSize / (6 - s.aaf_format)
      · rw [if_neg (by simpa using hsc)]
        simp [hsc]
      · rw [if_pos (by simpa using hsc)]
        simp [hsc]
    exact ⟨hiff, fun hinv => by simp [rxHeaderDataValid, hinv]⟩

/-- An incoming int24 packet (format 3) with stream_data_length 36 for the
int16 listener `listenerTestState` (payloadSize 24): the sample counts
agree (36 / 3 = 24 / 2 = 12). -/
def c5Packet : rx_packet_t where
  tvBit := true
  tuBit := false
  spBit := false
  timestamp := 0
  format_info := txFormatInfo 3 5 2 24
  packet_info := 36 <<< 16
  dataLen := 60
  payload := List.replicate 36 0

/-- Witness for `C5_payload_length_check`: the conversion-enabled case at
`c5Packet`, whose length field differs from the configured payload size. -/
theorem C5_payload_length_check_witness :
    rxPayloadLen c5Packet ≠ listenerTestState.payloadSize ∧
    (rxDataConversionEnabled listenerTestState c5Packet = true →
      ((rxLengthCheckInvalid listenerTestState c5Packet = true ↔
        rxPayloadLen c5Packet / (6 - rxIncomingFormat c5Packet)
          ≠ listenerTestState.payloadSize / (6 - listenerTestState.aaf_format)) ∧
       (rxLengthCheckInvalid listenerTestState c5Packet = true →
        rxHeaderDataValid listenerTestState c5Packet = false))) :=
  ⟨by decide, (C5_payload_length_check listenerTestState c5Packet (by decide)).2⟩

/-- Witness for `C8_framesPerPacket_ceil`: 48 kHz at an 8 kHz tx interval
gives 6 frames per packet with no warning. -/
theorem C8_framesPerPacket_ceil_witness :
    (0 : Nat) < 8000 ∧
    (x_calculateFramesPerPacket 48000 8000).1 = (48000 + 8000 - 1) / 8000 ∧
    (8000 ∣ 48000 → x_calculateFramesPerPacket 48000 8000 = (48000 / 8000, false)) :=
  ⟨by decide, (C8_framesPerPacket_ceil 48000 8000 (by decide)).1,
   (C8_framesPerPacket_ceil 48000 8000 (by decide)).2.1⟩

/-! ## C10: `map_nv_sparse_mode` configuration (`openavbMapAVTPAudioCfgCB`)

The callback branch (lines 403–413) runs `strtol(value, &pEnd, 10)` into a
U32 and updates `sparseMode` only when `*pEnd == (0 : Char)` and the U32 is
exactly 1 (enable) or exactly 0 (disable). -/

/-- Enum `avb_audio_sparse_mode_t`. -/
inductive avb_audio_sparse_mode_t where
  | TS_SPARSE_MODE_DISABLED
  | TS_SPARSE_MODE_ENABLED
deriving DecidableEq

/-- The `isspace` characters skipped by `strtol`. -/
def isSpaceChar (c : Char) : Bool :=
  decide (c.toNat = 32) || (decide (9 ≤ c.toNat) && decide (c.toNat ≤ 13))

/-- Decimal digit test. -/
def isDigitChar (c : Char) : Bool :=
  decide (48 ≤ c.toNat) && decide (c.toNat ≤ 57)

/-- ISO C `strtol(value, &pEnd, 10)` with a 64-bit `long`, over the bytes
of the value string (up to the terminating NUL): skip whitespace, an
optional sign, then decimal digits; the result is clamped to the `long`
range.  Returns the value and the index `pEnd` points at — the index after
the digits, or 0 (the original `nptr`) when no conversion was performed. -/
def strtol10 (value : List Char) : Int × Nat :=
  let ws := value.takeWhile isSpaceChar
  let rest1 := value.drop ws.length
  let signLen : Nat :=
    match rest1 with
    | c :: _ => if c = '-' ∨ c = '+' then 1 else 0
    | [] => 0
  let negative : Bool :=
    match rest1 with
    | c :: _ => c = '-'
    | [] => false
  let digits := (rest1.drop signLen).takeWhile isDigitChar
  if digits = [] then (0, 0)
  else
    let magnitude : Nat := digits.foldl (fun acc c => acc * 10 + (c.toNat - 48)) 0
    let v : Int := if negative then -(magnitude : Int) else (magnitude : Int)
    (max (-9223372036854775808) (min 9223372036854775807 v),
     ws.length + signLen + digits.length)

/-- The C cast of the `long` result to `U32`. -/
def u32ofInt (v : Int) : Nat := (v % 4294967296).toNat

/-- The `map_nv_sparse_mode` branch of `openavbMapAVTPAudioCfgCB`
(lines 403–413): `tmp = strtol(value, &pEnd, 10)` as U32; enable on a
complete parse of 1, disable on a complete parse of 0, otherwise leave the
setting unchanged.  `*pEnd == (0 : Char)` holds exactly when `pEnd` is at the
end of the value string (C strings carry no embedded NUL here). -/
def openavbMapAVTPAudioCfgSparseMode (value : List Char)
    (sparseMode : avb_audio_sparse_mode_t) : avb_audio_sparse_mode_t :=
  let tmp : Nat := u32ofInt (strtol10 value).1
  let atEnd := (strtol10 value).2 = value.length
  if atEnd ∧ tmp = 1 then avb_audio_sparse_mode_t.TS_SPARSE_MODE_ENABLED
  else if atEnd ∧ tmp = 0 then avb_audio_sparse_mode_t.TS_SPARSE_MODE_DISABLED
  else sparseMode

/-- C10 counterexample: the value string "4294967296" parses completely to
4294967296 — neither 0 nor 1 — yet its U32 cast is 0, so the code switches
sparse mode to disabled instead of leaving the previous setting unchanged;
the empty value string (no digits, `pEnd` left at the start, which is the
terminator) likewise sets disabled. -/
theorem C10_sparse_mode_counterexample :
    openavbMapAVTPAudioCfgSparseMode
        ['4', '2', '9', '4', '9', '6', '7', '2', '9', '6']
        avb_audio_sparse_mode_t.TS_SPARSE_MODE_ENABLED
      = avb_audio_sparse_mode_t.TS_SPARSE_MODE_DISABLED ∧
    openavbMapAVTPAudioCfgSparseMode []
        avb_audio_sparse_mode_t.TS_SPARSE_MODE_ENABLED
      = avb_audio_sparse_mode_t.TS_SPARSE_MODE_DISABLED := by
  refine ⟨by decide, by decide⟩

/-- C10 amended: the setting changes exactly when `strtol` stops at the end
of the value string (no trailing characters; this includes the empty string,
which parses as 0) and the parsed long *cast to U32* is exactly 1 (enable)
or exactly 0 (disable); any other value string leaves the previous setting
unchanged. -/
theorem C10_sparse_mode_amended (value : List Char) (m : avb_audio_sparse_mode_t) :
    (¬ (strtol10 value).2 = value.length →
      openavbMapAVTPAudioCfgSparseMode value m = m) ∧
    ((strtol10 value).2 = value.length →
      (u32ofInt (strtol10 value).1 = 1 →
        openavbMapAVTPAudioCfgSparseMode value m
          = avb_audio_sparse_mode_t.TS_SPARSE_MODE_ENABLED) ∧
      (u32ofInt (strtol10 value).1 = 0 →
        openavbMapAVTPAudioCfgSparseMode value m
          = avb_audio_sparse_mode_t.TS_SPARSE_MODE_DISABLED) ∧
      (u32ofInt (strtol10 value).1 ≠ 0 → u32ofInt (strtol10 value).1 ≠ 1 →
        openavbMapAVTPAudioCfgSparseMode value m = m)) := by
  constructor
  · intro hend
    unfold openavbMapAVTPAudioCfgSparseMode
    rw [if_neg (by simp [hend]), if_neg (by simp [hend])]
  · intro hend
    refine ⟨?_, ?_, ?_⟩
    · intro h1
      unfold openavbMapAVTPAudioCfgSparseMode
      rw [if_pos ⟨hend, h1⟩]
    · intro h0
      unfold openavbMapAVTPAudioCfgSparseMode
      rw [if_neg (by simp [h0]), if_pos ⟨hend, h0⟩]
    · intro h0 h1
      unfold openavbMapAVTPAudioCfgSparseMode
      rw [if_neg (by simp [h1]), if_neg (by simp [h0])]

/-- Witness for `C10_sparse_mode_amended`: the value string "1" parses
completely to 1 and enables sparse mode. -/
theorem C10_sparse_mode_amended_witness :
    (strtol10 ['1']).2 = (['1'] : List Char).length ∧
    u32ofInt (strtol10 ['1']).1 = 1 ∧
    openavbMapAVTPAudioCfgSparseMode ['1']
        avb_audio_sparse_mode_t.TS_SPARSE_MODE_DISABLED
      = avb_audio_sparse_mode_t.TS_SPARSE_MODE_ENABLED :=
  ⟨by decide, by decide,
   ((C10_sparse_mode_amended ['1']
      avb_audio_sparse_mode_t.TS_SPARSE_MODE_DISABLED).2 (by decide)).1 (by decide)⟩

end AAF
